import Mathlib

/-!
# Verification of the memory-assistant lifecycle subsystem

A shallow embedding, in Lean 4, of the memory lifecycle subsystem of the
`memory-assistant-v3` repository: the SQLite record store (`app/database.py`),
the extraction pipeline (`app/memory_extractor.py`, `app/extraction_models.py`,
`app/structured_llm_client.py`) and the organization pipeline
(`app/memory_organizer.py`, `app/ollama_client.py`).

Modelling conventions:
* Machine state: the four SQLite tables become four Lean lists of records; each
  database function becomes a pure function from `Db` to `Db` (plus its return
  value).  `CURRENT_TIMESTAMP` is modelled by an explicit `now : Nat` argument
  (day resolution, which is all the organizer ever inspects via `.days`).
* The text-generation backend (`OllamaClient.generate` together with the JSON
  extraction in `_parse_json_response`) is an oracle, modelled per call site:
  the organizer's detection prompts yield an `Option` of a parsed pair list
  (`none` embeds a response whose JSON extraction or `json.loads` fails, or a
  connectivity-sentinel string, all of which the code degrades to zero pairs);
  the merge / format / compress prompts yield the raw response string.  A
  backend that is unreachable or times out is the oracle returning the literal
  sentinel string `"エラー: ..."` built by `OllamaClient.generate`'s `except`
  branches -- that function never raises.
* Python `str.strip` is `pyStrip` (structural recursion so the kernel can
  evaluate it; Lean's builtin `String.trim` does not reduce), `len` on a string
  is `String.length` (character count, as in Python), and SQL `ORDER BY` is the
  structurally recursive insertion sort `sortBy`.
* Fallible code returns `Except String`; the only fallible operations in the
  modelled fragment are `update_compression_level` (table-name allow-list) and
  `datetime.fromisoformat` inside `_compress_old_episodes` (a stored
  `created_at` value is `some t` when the stored string parses and `none` when
  it does not, in which case the code raises).
-/

namespace MemAssist

/-- Python `str.strip` on the underlying character list. -/
def stripChars (cs : List Char) : List Char :=
  ((cs.dropWhile Char.isWhitespace).reverse.dropWhile Char.isWhitespace).reverse

/-- Python `str.strip`: drop leading and trailing whitespace. -/
def pyStrip (s : String) : String := ⟨stripChars s.data⟩

/-- Insert into a sorted list (kernel-reducible insertion sort step). -/
def insertBy {α : Type} (le : α → α → Bool) (a : α) : List α → List α
  | [] => [a]
  | b :: bs => if le a b then a :: b :: bs else b :: insertBy le a bs

/-- Insertion sort; models SQL `ORDER BY` clauses. -/
def sortBy {α : Type} (le : α → α → Bool) : List α → List α
  | [] => []
  | a :: as => insertBy le a (sortBy le as)

/-! ## Data model (`database.py`, `init_database`) -/

/-- A row of the `user_attributes` table. -/
structure AttributeRec where
  id : Nat
  attribute_name : String
  attribute_value : String
  created_at : Nat
  updated_at : Nat
  compression_level : Nat
deriving Repr, DecidableEq

/-- A row of the `user_memories` table.  `created_at = none` embeds a stored
timestamp string that `datetime.fromisoformat` rejects; `some t` is a
parseable timestamp, at day resolution. -/
structure MemoryRec where
  id : Nat
  memory_content : String
  memory_category : String
  created_at : Option Nat
  updated_at : Nat
  access_count : Nat
  compression_level : Nat
  is_active : Bool
deriving Repr, DecidableEq

/-- A row of the `user_goals` table. -/
structure GoalRec where
  id : Nat
  goal_content : String
  goal_status : String
  priority : Int
  created_at : Nat
  updated_at : Nat
  completed_at : Option Nat
  compression_level : Nat
deriving Repr, DecidableEq

/-- A row of the `assistant_requests` table. -/
structure RequestRec where
  id : Nat
  request_content : String
  request_category : String
  is_active : Bool
  updated_at : Nat
deriving Repr, DecidableEq

/-- The four tables of the SQLite database. -/
structure Db where
  user_attributes : List AttributeRec
  user_memories : List MemoryRec
  user_goals : List GoalRec
  assistant_requests : List RequestRec
deriving Repr, DecidableEq

/-- `AUTOINCREMENT` id for a fresh `user_attributes` row. -/
def next_attribute_id (db : Db) : Nat :=
  (db.user_attributes.map (·.id)).foldr max 0 + 1

/-- `AUTOINCREMENT` id for a fresh `user_memories` row. -/
def next_memory_id (db : Db) : Nat :=
  (db.user_memories.map (·.id)).foldr max 0 + 1

/-- `AUTOINCREMENT` id for a fresh `user_goals` row. -/
def next_goal_id (db : Db) : Nat :=
  (db.user_goals.map (·.id)).foldr max 0 + 1

/-- `AUTOINCREMENT` id for a fresh `assistant_requests` row. -/
def next_request_id (db : Db) : Nat :=
  ((db.assistant_requests.map (·.id)).foldr max 0) + 1

/-! ## `user_attributes` operations -/

/-- `add_attribute` (`database.py:120`): upsert by `attribute_name`.  The
`SELECT id ... WHERE attribute_name = ?` + `fetchone` is a first-match lookup;
the `UPDATE ... WHERE attribute_name = ?` touches every row of that name. -/
def add_attribute (db : Db) (now : Nat) (nm value : String) : Db × Nat :=
  match db.user_attributes.find? (fun a => a.attribute_name == nm) with
  | some existing =>
      ({ db with user_attributes := db.user_attributes.map (fun a =>
            if a.attribute_name == nm then
              { a with attribute_value := value, updated_at := now }
            else a) },
       existing.id)
  | none =>
      let rid := next_attribute_id db
      ({ db with user_attributes := db.user_attributes ++
            [{ id := rid, attribute_name := nm, attribute_value := value,
               created_at := now, updated_at := now, compression_level := 0 }] },
       rid)

/-- `get_all_attributes` (`database.py:162`): `SELECT * ... ORDER BY updated_at DESC`. -/
def get_all_attributes (db : Db) : List AttributeRec :=
  sortBy (fun a b => a.updated_at ≥ b.updated_at) db.user_attributes

/-- `update_attribute` (`database.py:181`). -/
def update_attribute (db : Db) (now : Nat) (attribute_id : Nat) (value : String) :
    Db × Bool :=
  ({ db with user_attributes := db.user_attributes.map (fun a =>
        if a.id == attribute_id then
          { a with attribute_value := value, updated_at := now }
        else a) },
   db.user_attributes.any (fun a => a.id == attribute_id))

/-- `delete_attribute` (`database.py:207`): hard delete. -/
def delete_attribute (db : Db) (attribute_id : Nat) : Db × Bool :=
  ({ db with user_attributes := db.user_attributes.filter (fun a => a.id != attribute_id) },
   db.user_attributes.any (fun a => a.id == attribute_id))

/-! ## `user_memories` operations -/

/-- `add_memory` (`database.py:232`). -/
def add_memory (db : Db) (now : Nat) (content category : String) : Db × Nat :=
  let rid := next_memory_id db
  ({ db with user_memories := db.user_memories ++
        [{ id := rid, memory_content := content, memory_category := category,
           created_at := some now, updated_at := now, access_count := 0,
           compression_level := 0, is_active := true }] },
   rid)

/-- `get_all_memories` (`database.py:257`): optionally `WHERE is_active = 1`,
`ORDER BY updated_at DESC`. -/
def get_all_memories (db : Db) (active_only : Bool) : List MemoryRec :=
  let rows := if active_only then db.user_memories.filter (·.is_active)
              else db.user_memories
  sortBy (fun a b => a.updated_at ≥ b.updated_at) rows

/-- `update_memory` (`database.py:311`). -/
def update_memory (db : Db) (now : Nat) (memory_id : Nat) (content : String) :
    Db × Bool :=
  ({ db with user_memories := db.user_memories.map (fun m =>
        if m.id == memory_id then
          { m with memory_content := content, updated_at := now }
        else m) },
   db.user_memories.any (fun m => m.id == memory_id))

/-- `delete_memory` (`database.py:337`): hard delete removes the row, soft
delete sets `is_active = 0`. -/
def delete_memory (db : Db) (now : Nat) (memory_id : Nat) (hard_delete : Bool) :
    Db × Bool :=
  if hard_delete then
    ({ db with user_memories := db.user_memories.filter (fun m => m.id != memory_id) },
     db.user_memories.any (fun m => m.id == memory_id))
  else
    ({ db with user_memories := db.user_memories.map (fun m =>
          if m.id == memory_id then { m with is_active := false, updated_at := now }
          else m) },
     db.user_memories.any (fun m => m.id == memory_id))

/-! ## `user_goals` operations -/

/-- `add_goal` (`database.py:393`): plain insert, the priority is stored
verbatim (no clamping here). -/
def add_goal (db : Db) (now : Nat) (content : String) (priority : Int) : Db × Nat :=
  let rid := next_goal_id db
  ({ db with user_goals := db.user_goals ++
        [{ id := rid, goal_content := content, goal_status := "active",
           priority := priority, created_at := now, updated_at := now,
           completed_at := none, compression_level := 0 }] },
   rid)

/-- `get_all_goals` (`database.py:418`): optional status filter,
`ORDER BY priority ASC, updated_at DESC`. -/
def get_all_goals (db : Db) (status_filter : Option String) : List GoalRec :=
  let rows := match status_filter with
    | some st => db.user_goals.filter (fun g => g.goal_status == st)
    | none => db.user_goals
  sortBy (fun a b =>
    a.priority < b.priority || (a.priority == b.priority && a.updated_at ≥ b.updated_at)) rows

/-- `update_goal` (`database.py:449`): dynamically assembled partial update.
`completed_at` is assigned exactly when the supplied status is `'completed'`;
`updated_at` is always refreshed. -/
def update_goal (db : Db) (now : Nat) (goal_id : Nat)
    (goal_content : Option String) (goal_status : Option String)
    (priority : Option Int) : Db × Bool :=
  let apply : GoalRec → GoalRec := fun g =>
    let g := match goal_content with
      | some c => { g with goal_content := c }
      | none => g
    let g := match goal_status with
      | some st =>
          let g := { g with goal_status := st }
          if st == "completed" then { g with completed_at := some now } else g
      | none => g
    let g := match priority with
      | some p => { g with priority := p }
      | none => g
    { g with updated_at := now }
  ({ db with user_goals := db.user_goals.map (fun g =>
        if g.id == goal_id then apply g else g) },
   db.user_goals.any (fun g => g.id == goal_id))

/-- `delete_goal` (`database.py:504`): hard delete. -/
def delete_goal (db : Db) (goal_id : Nat) : Db × Bool :=
  ({ db with user_goals := db.user_goals.filter (fun g => g.id != goal_id) },
   db.user_goals.any (fun g => g.id == goal_id))

/-! ## `assistant_requests` operations -/

/-- `add_request` (`database.py:529`). -/
def add_request (db : Db) (now : Nat) (content category : String) : Db × Nat :=
  let rid := next_request_id db
  ({ db with assistant_requests := db.assistant_requests ++
        [{ id := rid, request_content := content, request_category := category,
           is_active := true, updated_at := now }] },
   rid)

/-- `get_all_requests` (`database.py:554`). -/
def get_all_requests (db : Db) (active_only : Bool) : List RequestRec :=
  let rows := if active_only then db.assistant_requests.filter (·.is_active)
              else db.assistant_requests
  sortBy (fun a b => a.updated_at ≥ b.updated_at) rows

/-- `update_request` (`database.py:582`). -/
def update_request (db : Db) (now : Nat) (request_id : Nat) (content : String) :
    Db × Bool :=
  ({ db with assistant_requests := db.assistant_requests.map (fun r =>
        if r.id == request_id then
          { r with request_content := content, updated_at := now }
        else r) },
   db.assistant_requests.any (fun r => r.id == request_id))

/-- `delete_request` (`database.py:608`): despite its docstring, a hard
`DELETE FROM assistant_requests`. -/
def delete_request (db : Db) (request_id : Nat) : Db × Bool :=
  ({ db with assistant_requests := db.assistant_requests.filter (fun r => r.id != request_id) },
   db.assistant_requests.any (fun r => r.id == request_id))

/-! ## `update_compression_level` (`database.py:633`) -/

/-- `update_compression_level`: the table name is checked against a fixed
allow-list (raising `ValueError` otherwise, modelled as `Except.error`), then
the level is assigned unconditionally -- there is no comparison with the
record's current level. -/
def update_compression_level (db : Db) (now : Nat) (table_name : String)
    (record_id : Nat) (compression_level : Nat) : Except String (Db × Bool) :=
  if table_name == "user_attributes" || table_name == "user_memories" ||
      table_name == "user_goals" then
    if table_name == "user_attributes" then
      .ok ({ db with user_attributes := db.user_attributes.map (fun a =>
                if a.id == record_id then
                  { a with compression_level := compression_level, updated_at := now }
                else a) },
           db.user_attributes.any (fun a => a.id == record_id))
    else if table_name == "user_memories" then
      .ok ({ db with user_memories := db.user_memories.map (fun m =>
                if m.id == record_id then
                  { m with compression_level := compression_level, updated_at := now }
                else m) },
           db.user_memories.any (fun m => m.id == record_id))
    else
      .ok ({ db with user_goals := db.user_goals.map (fun g =>
                if g.id == record_id then
                  { g with compression_level := compression_level, updated_at := now }
                else g) },
           db.user_goals.any (fun g => g.id == record_id))
  else
    .error ("不正なテーブル名: " ++ table_name)

/-! ## Observation helpers (not part of the source; used only to state theorems) -/

/-- The record of `user_memories` with a given id, if any. -/
def lookup_memory (db : Db) (i : Nat) : Option MemoryRec :=
  db.user_memories.find? (fun m => m.id == i)

/-- The compression level stored for memory `i`. -/
def memory_level (db : Db) (i : Nat) : Option Nat :=
  (lookup_memory db i).map (·.compression_level)

/-- The content stored for memory `i`. -/
def memory_content_of (db : Db) (i : Nat) : Option String :=
  (lookup_memory db i).map (·.memory_content)

/-- The record of `user_goals` with a given id, if any. -/
def lookup_goal (db : Db) (i : Nat) : Option GoalRec :=
  db.user_goals.find? (fun g => g.id == i)

/-- The record of `user_attributes` with a given id, if any. -/
def lookup_attribute (db : Db) (i : Nat) : Option AttributeRec :=
  db.user_attributes.find? (fun a => a.id == i)

/-- The record of `assistant_requests` with a given id, if any. -/
def lookup_request (db : Db) (i : Nat) : Option RequestRec :=
  db.assistant_requests.find? (fun r => r.id == i)

/-! ## Extraction models (`extraction_models.py`)

The `pydantic` item models, together with the validation `model_validate`
performs on them.  The `*Json` structures are JSON objects of the expected
shape with every key optional: they are both the parsed stage-2 output that
`_parse_to_model` feeds to `model_validate`, and (via `model_dump`, where every
key is present) the per-category candidate dictionaries that
`extract_memories` returns and `save_extracted_memories` consumes. -/

/-- Validated `AttributeItem`: both fields required. -/
structure AttributeItem where
  name : String
  value : String
deriving Repr, DecidableEq

/-- Validated `MemoryItem`: `content` required, `category` defaults to
`"general"` (a plain `str` field: no enum constraint is declared). -/
structure MemoryItem where
  content : String
  category : String
deriving Repr, DecidableEq

/-- Validated `GoalItem`: `content` required, `priority` defaults to 5 and is
constrained by `ge=1, le=10`. -/
structure GoalItem where
  content : String
  priority : Int
deriving Repr, DecidableEq

/-- Validated `RequestItem`: `content` required, `category` defaults to
`"general"`. -/
structure RequestItem where
  content : String
  category : String
deriving Repr, DecidableEq

/-- Validated `ExtractedMemories`. -/
structure ExtractedMemories where
  attributes : List AttributeItem
  memories : List MemoryItem
  goals : List GoalItem
  requests : List RequestItem
deriving Repr, DecidableEq

/-- A JSON attribute object (keys may be absent). -/
structure AttributeJson where
  name : Option String
  value : Option String
deriving Repr, DecidableEq

/-- A JSON memory object. -/
structure MemoryJson where
  content : Option String
  category : Option String
deriving Repr, DecidableEq

/-- A JSON goal object. -/
structure GoalJson where
  content : Option String
  priority : Option Int
deriving Repr, DecidableEq

/-- A JSON request object. -/
structure RequestJson where
  content : Option String
  category : Option String
deriving Repr, DecidableEq

/-- A JSON object of the `ExtractedMemories` shape. -/
structure ExtractedJson where
  attributes : List AttributeJson
  memories : List MemoryJson
  goals : List GoalJson
  requests : List RequestJson
deriving Repr, DecidableEq

/-- `AttributeItem.model_validate`. -/
def validateAttributeItem (r : AttributeJson) : Option AttributeItem :=
  match r.name, r.value with
  | some n, some v => some ⟨n, v⟩
  | _, _ => none

/-- `MemoryItem.model_validate`. -/
def validateMemoryItem (r : MemoryJson) : Option MemoryItem :=
  match r.content with
  | some c => some ⟨c, r.category.getD "general"⟩
  | none => none

/-- `GoalItem.model_validate`: the `ge=1, le=10` bounds reject (they do not
clamp) an out-of-range priority. -/
def validateGoalItem (r : GoalJson) : Option GoalItem :=
  match r.content with
  | some c =>
      let p := r.priority.getD 5
      if 1 ≤ p ∧ p ≤ 10 then some ⟨c, p⟩ else none
  | none => none

/-- `RequestItem.model_validate`. -/
def validateRequestItem (r : RequestJson) : Option RequestItem :=
  match r.content with
  | some c => some ⟨c, r.category.getD "general"⟩
  | none => none

/-- `ExtractedMemories.model_validate`: fails if any item of any category
fails. -/
def validateExtracted (r : ExtractedJson) : Option ExtractedMemories :=
  match r.attributes.mapM validateAttributeItem, r.memories.mapM validateMemoryItem,
        r.goals.mapM validateGoalItem, r.requests.mapM validateRequestItem with
  | some attrs, some mems, some gs, some reqs => some ⟨attrs, mems, gs, reqs⟩
  | _, _, _, _ => none

/-- `model_dump` of a validated extraction result (every key present). -/
def dumpExtracted (e : ExtractedMemories) : ExtractedJson where
  attributes := e.attributes.map (fun a => ⟨some a.name, some a.value⟩)
  memories := e.memories.map (fun m => ⟨some m.content, some m.category⟩)
  goals := e.goals.map (fun g => ⟨some g.content, some g.priority⟩)
  requests := e.requests.map (fun r => ⟨some r.content, some r.category⟩)

/-! ## Structured generation client (`structured_llm_client.py`) -/

/-- Oracle for the structured client's backend path: the two `_call_ollama`
stages, `_extract_json` and `json.loads` of `_two_stage_generation` /
`_parse_to_model`, taken together as one function from the caller's prompt to
the parsed stage-2 JSON.  `.error` covers a connectivity failure of either
stage (re-raised by `_call_ollama`) and a JSON extraction / decode failure
(`ValueError` from `_parse_to_model`). -/
structure StructuredBackend where
  structuredJson : String → Except String ExtractedJson

/-- `StructuredLLMClient.generate_structured` specialised to the
`ExtractedMemories` response model: obtain parsed JSON from the backend, then
`model_validate` it; every failure (connectivity, parse, schema validation)
surfaces as an exception (`Except.error`). -/
def generate_structured (b : StructuredBackend) (prompt : String) :
    Except String ExtractedMemories :=
  match b.structuredJson prompt with
  | .error e => .error ("Ollama API呼び出しエラー: " ++ e)
  | .ok raw =>
      match validateExtracted raw with
      | some v => .ok v
      | none => .error "JSONパースエラー: validation error"

/-! ## Extraction pipeline (`memory_extractor.py`) -/

/-- `EXTRACTION_PROMPT.format(...)` of `memory_extractor.py`, with
`ai_response` falling back to `（なし）` when empty (Python truthiness). -/
def extraction_prompt (user_input ai_response : String) : String :=
  "あなたは会話から重要な情報を正確に抽出するAIです。\n" ++
  "ユーザーの発言から、保存すべき情報を漏れなく、改変せずに抽出してください。\n\n" ++
  "## ルール\n1. ユーザーの発言のみを分析する\n2. AIの応答は抽出対象外\n" ++
  "3. 推測や仮定は含めない\n4. 明確に述べられた情報のみ抽出する\n\n" ++
  "## 分析対象の会話\nAI応答: " ++ (if ai_response == "" then "（なし）" else ai_response) ++
  "\nユーザー入力: " ++ user_input ++ "\n\n" ++
  "## 抽出カテゴリ\n- attributes: ユーザー属性（名前、年齢、職業、住所、趣味など）\n" ++
  "- memories: 日常の出来事、経験、好み、知識など\n" ++
  "- goals: やりたいこと、達成したいこと、予定など\n" ++
  "- requests: アシスタントへのお願い（話し方、振る舞いなど）\n\n" ++
  "## カテゴリ値\n- memories: \"general\", \"preference\", \"event\", \"knowledge\"\n" ++
  "- requests: \"tone\", \"behavior\", \"format\", \"general\"\n" ++
  "- priority: 1-10の整数（デフォルト5）\n\n" ++
  "## 注意\n- 「私は」「僕は」などの一人称に注目する\n- AIが生成した表現は除外する\n" ++
  "- 不確かな情報は含めない\n\n" ++
  "ユーザーの発言を分析し、抽出すべき情報を特定してください。\n"

/-- The empty candidate set (`extract_memories`' error fallback). -/
def emptyExtractedJson : ExtractedJson := ⟨[], [], [], []⟩

/-- `MemoryExtractor.extract_memories`: one structured call over all four
categories; any exception degrades to the empty candidate set. -/
def extract_memories (b : StructuredBackend) (user_input ai_response : String) :
    ExtractedJson :=
  match generate_structured b (extraction_prompt user_input ai_response) with
  | .ok v => dumpExtracted v
  | .error _ => emptyExtractedJson

/-- The per-category saved counts `save_extracted_memories` returns. -/
structure SavedCounts where
  attributes : Nat
  memories : Nat
  goals : Nat
  requests : Nat
deriving Repr, DecidableEq

/-- `MemoryExtractor.save_extracted_memories`: attributes via upsert-by-name,
the rest via plain insert; a goal's priority is taken from the candidate with
default 5 and stored verbatim. -/
def save_extracted_memories (db : Db) (now : Nat) (extracted : ExtractedJson) :
    Db × SavedCounts :=
  let sa := extracted.attributes.foldl (fun (acc : Db × Nat) a =>
      match a.name, a.value with
      | some n, some v => ((add_attribute acc.1 now n v).1, acc.2 + 1)
      | _, _ => acc) (db, 0)
  let sm := extracted.memories.foldl (fun (acc : Db × Nat) m =>
      match m.content with
      | some ct => ((add_memory acc.1 now ct (m.category.getD "general")).1, acc.2 + 1)
      | none => acc) (sa.1, 0)
  let sg := extracted.goals.foldl (fun (acc : Db × Nat) g =>
      match g.content with
      | some ct => ((add_goal acc.1 now ct (g.priority.getD 5)).1, acc.2 + 1)
      | none => acc) (sm.1, 0)
  let sr := extracted.requests.foldl (fun (acc : Db × Nat) r =>
      match r.content with
      | some ct => ((add_request acc.1 now ct (r.category.getD "general")).1, acc.2 + 1)
      | none => acc) (sg.1, 0)
  (sr.1, ⟨sa.2, sm.2, sg.2, sr.2⟩)

/-- `MemoryExtractor.process_input`: extract then save. -/
def process_input (b : StructuredBackend) (now : Nat) (db : Db)
    (user_input ai_response : String) : Db × ExtractedJson × SavedCounts :=
  let extracted := extract_memories b user_input ai_response
  let saved := save_extracted_memories db now extracted
  (saved.1, extracted, saved.2)

/-! ## Organization pipeline (`memory_organizer.py`)

Configuration (`config.py`): `MEMORY_COMPRESSION_THRESHOLDS`. -/

def THRESHOLD_medium : Nat := 30
def THRESHOLD_old : Nat := 90
def THRESHOLD_ancient : Nat := 365

/-- `MemoryOrganizer.MAX_ITEMS_PER_STEP`. -/
def MAX_ITEMS_PER_STEP : Nat := 20

/-- A parsed `{id1, id2, reason}` duplicate pair.  The code reads only the two
ids (`reason` is never consulted); a parsed entry whose ids are missing or
non-integer never matches a fetched record and never consumes an id, i.e.
behaves exactly like a pair whose ids are absent from the batch, so such
entries are omitted from the model. -/
structure DuplicatePair where
  id1 : Nat
  id2 : Nat
deriving Repr, DecidableEq

/-- A parsed `{id1, id2, newer_id, reason}` conflict pair (`reason` unused by
the code). -/
structure ConflictPair where
  id1 : Nat
  id2 : Nat
  newer_id : Nat
deriving Repr, DecidableEq

/-- Oracle for `OllamaClient` as the organizer uses it.  `generateText` is
`OllamaClient.generate` (that function never raises: a backend that is
unreachable or timed out yields the literal sentinel string built by its
`except` branches, e.g. `"エラー: Ollamaサーバーに接続できません。..."`).
`generateDuplicates` / `generateConflicts` are `generate` composed with
`_parse_json_response` on the two detection prompt families: `none` embeds a
response whose JSON extraction fails or is not a list (including the
connectivity sentinel, which is not JSON), which the code degrades to zero
pairs. -/
structure Client where
  generateText : String → String
  generateDuplicates : String → Option (List DuplicatePair)
  generateConflicts : String → Option (List ConflictPair)

/-- `DUPLICATE_DETECTION_PROMPT.format(items=...)`. -/
def duplicate_detection_prompt (items : String) : String :=
  "Identify pairs of items that have the same meaning or are duplicates from the list below.\n\n" ++
  "### Item List\n" ++ items ++ "\n\n### Output Format\n" ++
  "Output the duplicate pairs in JSON format. If there are no duplicates, return an empty array.\n" ++
  "```json\n[\n    \x7b\"id1\": 1, \"id2\": 3, \"reason\": \"Both mention exactly the same topic\"\x7d,\n" ++
  "    \x7b\"id1\": 2, \"id2\": 5, \"reason\": \"Different expression of the same information\"\x7d\n]\n```\n" ++
  "Output **JSON ONLY**. No other text.\n"

/-- `MERGE_PROMPT.format(item1=..., item2=...)`. -/
def merge_prompt (item1 item2 : String) : String :=
  "Merge the following two items into one.\n" ++
  "Include all important information from both to ensure no information is lost.\n\n" ++
  "### Item 1\n" ++ item1 ++ "\n\n### Item 2\n" ++ item2 ++
  "\n\n### Output Format\nOutput the merged content in a single Japanese sentence. No JSON.\n"

/-- `FORMAT_PROMPT.format(text=...)`. -/
def format_prompt (text : String) : String :=
  "Refine the expression of the following text into natural Japanese.\n" ++
  "Make it easier to read without changing the meaning.\n\n### Original Text\n" ++
  text ++ "\n\n### Output Format\nOutput the refined text in Japanese. Keep it concise.\n"

/-- `COMPRESS_PROMPT.format(level=..., content=...)`. -/
def compress_prompt (level : Nat) (content : String) : String :=
  "Compress the following episode.\n" ++
  "Keep the important information but make the expression shorter.\n\n### Compression Level\n" ++
  toString level ++ " (1:Light, 2:Medium, 3:Strong)\n\n### Original Episode\n" ++
  content ++ "\n\n### Output Format\n" ++
  "Output the compressed episode in Japanese. The higher the compression level, the shorter it should be.\n"

/-- `CONFLICT_DETECTION_PROMPT.format(items=...)`. -/
def conflict_detection_prompt (items : String) : String :=
  "Identify conflicting items from the following list.\n" ++
  "Conflicting items have contradictory information about the same topic.\n\n" ++
  "### Item List\n" ++ items ++ "\n\n### Output Format\n" ++
  "Output the conflicting pairs in JSON format. If there are no conflicts, return an empty array.\n" ++
  "```json\n[\n    \x7b\"id1\": 1, \"id2\": 3, \"newer_id\": 3, \"reason\": \"Values are contradictory\"\x7d\n]\n```\n" ++
  "In `newer_id`, specify the ID of the newer information (the one that should be kept).\n" ++
  "Output **JSON ONLY**. No other text.\n"

/-- Progress event.  Of `_notify_progress`'s payload the model keeps the
`step` and `status` fields; `step_display`, `message`, `progress`, `data` and
`timestamp` carry no information any verified claim is about. -/
structure ProgressEvent where
  step : String
  status : String
deriving Repr, DecidableEq

/-- Result counts of the attribute and goal stages
(`{'merged': _, 'formatted': _, 'conflicts_resolved': _}`). -/
structure AttrGoalCounts where
  merged : Nat
  formatted : Nat
  conflicts_resolved : Nat
deriving Repr, DecidableEq

/-- Result counts of the episode stage
(`{'merged': _, 'formatted': _, 'compressed': _}`). -/
structure EpisodeCounts where
  merged : Nat
  formatted : Nat
  compressed : Nat
deriving Repr, DecidableEq

/-- Result counts of the request stage (`{'merged': _, 'formatted': _}`). -/
structure RequestCounts where
  merged : Nat
  formatted : Nat
deriving Repr, DecidableEq

/-- `organize_all`'s result summary. -/
structure OrganizeResults where
  attributes : AttrGoalCounts
  episodes : EpisodeCounts
  goals : AttrGoalCounts
  requests : RequestCounts
  error : Option String
deriving Repr, DecidableEq

/-- Outcome of one stage: the progress events it appended to
`organization_log`, the database state after its committed writes, and its
result counts (`Except.error` when an exception escapes the stage; writes
committed before the exception persist in `db`). -/
structure StageOut (ρ : Type) where
  events : List ProgressEvent
  db : Db
  result : Except String ρ
deriving Repr

/-- Outcome of a duplicate-merge loop, with the acted-on pairs kept as ghost
output for specification purposes (the code returns only the count). -/
structure MergeLoopOut where
  db : Db
  merged : Nat
  events : List ProgressEvent
  acted : List DuplicatePair
deriving Repr

/-- Outcome of a conflict-resolution loop, with ghost acted-on pairs. -/
structure ResolveLoopOut where
  db : Db
  resolved : Nat
  events : List ProgressEvent
  acted : List ConflictPair
deriving Repr

/-- The `ID:{id} - {content}` item list of `_merge_duplicate_episodes`. -/
def episode_items_str (eps : List MemoryRec) : String :=
  String.intercalate "\n" ((eps.take MAX_ITEMS_PER_STEP).map (fun ep =>
    "ID:" ++ toString ep.id ++ " - " ++ ep.memory_content))

/-- The item list of `_merge_duplicate_requests`. -/
def request_items_str (reqs : List RequestRec) : String :=
  String.intercalate "\n" ((reqs.take MAX_ITEMS_PER_STEP).map (fun rq =>
    "ID:" ++ toString rq.id ++ " - " ++ rq.request_content))

/-- `_detect_conflicts`' item list for attributes
(`name_field='attribute_name'`, `value_field='attribute_value'`). -/
def attribute_conflict_items_str (items : List AttributeRec) : String :=
  String.intercalate "\n" ((items.take MAX_ITEMS_PER_STEP).map (fun a =>
    "ID:" ++ toString a.id ++ " - " ++ a.attribute_name ++ ": " ++ a.attribute_value ++
    " (更新: " ++ toString a.updated_at ++ ")"))

/-- `_detect_conflicts`' item list for goals
(`name_field='goal_content'`, `value_field='goal_status'`). -/
def goal_conflict_items_str (items : List GoalRec) : String :=
  String.intercalate "\n" ((items.take MAX_ITEMS_PER_STEP).map (fun g =>
    "ID:" ++ toString g.id ++ " - " ++ g.goal_content ++ ": " ++ g.goal_status ++
    " (更新: " ++ toString g.updated_at ++ ")"))

/-- `_detect_conflicts` for the attribute stage: prompt, generate, parse;
parse failure or a non-list degrades to `[]`. -/
def detect_conflicts_attributes (c : Client) (items : List AttributeRec) :
    List ConflictPair :=
  (c.generateConflicts (conflict_detection_prompt (attribute_conflict_items_str items))).getD []

/-- `_detect_conflicts` for the goal stage. -/
def detect_conflicts_goals (c : Client) (items : List GoalRec) : List ConflictPair :=
  (c.generateConflicts (conflict_detection_prompt (goal_conflict_items_str items))).getD []

/-- The loop body of `_merge_duplicate_episodes`: first-claim-wins consumption
over `processed_ids`, merged text written into `id1` via `update_memory`,
`id2` soft-deleted. -/
def merge_episodes_loop (c : Client) (now : Nat) (episodes : List MemoryRec) :
    List DuplicatePair → List Nat → Db → MergeLoopOut
  | [], _, db => ⟨db, 0, [], []⟩
  | dup :: rest, processed, db =>
    if processed.contains dup.id1 || processed.contains dup.id2 then
      merge_episodes_loop c now episodes rest processed db
    else
      match episodes.find? (fun e => e.id == dup.id1),
            episodes.find? (fun e => e.id == dup.id2) with
      | some ep1, some ep2 =>
          let merged_content :=
            pyStrip (c.generateText (merge_prompt ep1.memory_content ep2.memory_content))
          let db1 := (update_memory db now dup.id1 merged_content).1
          let db2 := (delete_memory db1 now dup.id2 false).1
          let out := merge_episodes_loop c now episodes rest (dup.id1 :: dup.id2 :: processed) db2
          ⟨out.db, out.merged + 1, ⟨"episode", "processing"⟩ :: out.events, dup :: out.acted⟩
      | _, _ => merge_episodes_loop c now episodes rest processed db

/-- `_merge_duplicate_episodes`: detect, then merge with consumption; a parse
failure or non-list response yields zero merges. -/
def merge_duplicate_episodes (c : Client) (now : Nat) (episodes : List MemoryRec)
    (db : Db) : MergeLoopOut :=
  match c.generateDuplicates (duplicate_detection_prompt (episode_items_str episodes)) with
  | none => ⟨db, 0, [], []⟩
  | some dups => merge_episodes_loop c now episodes dups [] db

/-- The loop body of `_merge_duplicate_requests`: merged text written into
`id1` via `update_request`, `id2` hard-deleted via `delete_request`. -/
def merge_requests_loop (c : Client) (now : Nat) (requests : List RequestRec) :
    List DuplicatePair → List Nat → Db → MergeLoopOut
  | [], _, db => ⟨db, 0, [], []⟩
  | dup :: rest, processed, db =>
    if processed.contains dup.id1 || processed.contains dup.id2 then
      merge_requests_loop c now requests rest processed db
    else
      match requests.find? (fun r => r.id == dup.id1),
            requests.find? (fun r => r.id == dup.id2) with
      | some rq1, some rq2 =>
          let merged_content :=
            pyStrip (c.generateText (merge_prompt rq1.request_content rq2.request_content))
          let db1 := (update_request db now dup.id1 merged_content).1
          let db2 := (delete_request db1 dup.id2).1
          let out := merge_requests_loop c now requests rest (dup.id1 :: dup.id2 :: processed) db2
          ⟨out.db, out.merged + 1, ⟨"request", "processing"⟩ :: out.events, dup :: out.acted⟩
      | _, _ => merge_requests_loop c now requests rest processed db

/-- `_merge_duplicate_requests`. -/
def merge_duplicate_requests (c : Client) (now : Nat) (requests : List RequestRec)
    (db : Db) : MergeLoopOut :=
  match c.generateDuplicates (duplicate_detection_prompt (request_items_str requests)) with
  | none => ⟨db, 0, [], []⟩
  | some dups => merge_requests_loop c now requests dups [] db

/-- The loop body of `_resolve_attribute_conflicts`: the older side
(`id1` when `newer_id == id2`, else `id2`) is hard-deleted. -/
def resolve_attribute_conflicts_loop (attributes : List AttributeRec) :
    List ConflictPair → List Nat → Db → ResolveLoopOut
  | [], _, db => ⟨db, 0, [], []⟩
  | cf :: rest, processed, db =>
    if processed.contains cf.id1 || processed.contains cf.id2 then
      resolve_attribute_conflicts_loop attributes rest processed db
    else
      let older_id := if cf.newer_id == cf.id2 then cf.id1 else cf.id2
      match attributes.find? (fun a => a.id == cf.id1),
            attributes.find? (fun a => a.id == cf.id2) with
      | some _, some _ =>
          let db1 := (delete_attribute db older_id).1
          let out := resolve_attribute_conflicts_loop attributes rest
            (cf.id1 :: cf.id2 :: processed) db1
          ⟨out.db, out.resolved + 1, ⟨"attribute", "processing"⟩ :: out.events, cf :: out.acted⟩
      | _, _ => resolve_attribute_conflicts_loop attributes rest processed db

/-- `_resolve_attribute_conflicts`. -/
def resolve_attribute_conflicts (conflicts : List ConflictPair)
    (attributes : List AttributeRec) (db : Db) : ResolveLoopOut :=
  resolve_attribute_conflicts_loop attributes conflicts [] db

/-- The loop body of `_resolve_goal_conflicts`: the older side's status is set
to `cancelled` via `update_goal`. -/
def resolve_goal_conflicts_loop (now : Nat) (goals : List GoalRec) :
    List ConflictPair → List Nat → Db → ResolveLoopOut
  | [], _, db => ⟨db, 0, [], []⟩
  | cf :: rest, processed, db =>
    if processed.contains cf.id1 || processed.contains cf.id2 then
      resolve_goal_conflicts_loop now goals rest processed db
    else
      let older_id := if cf.newer_id == cf.id2 then cf.id1 else cf.id2
      match goals.find? (fun g => g.id == cf.id1),
            goals.find? (fun g => g.id == cf.id2) with
      | some _, some _ =>
          let db1 := (update_goal db now older_id none (some "cancelled") none).1
          let out := resolve_goal_conflicts_loop now goals rest
            (cf.id1 :: cf.id2 :: processed) db1
          ⟨out.db, out.resolved + 1, ⟨"goal", "processing"⟩ :: out.events, cf :: out.acted⟩
      | _, _ => resolve_goal_conflicts_loop now goals rest processed db

/-- `_resolve_goal_conflicts`. -/
def resolve_goal_conflicts (now : Nat) (conflicts : List ConflictPair)
    (goals : List GoalRec) (db : Db) : ResolveLoopOut :=
  resolve_goal_conflicts_loop now goals conflicts [] db

/-- `_format_attribute`'s value extraction: Python
`formatted.split(':', 1)[1].strip()` when `':' in formatted`, else the whole
text.  (`splitFirstColon` returns the text before and after the first `':'`.) -/
def splitFirstColon : List Char → Option (List Char × List Char)
  | [] => none
  | ch :: cs =>
      if ch = ':' then some ([], cs)
      else match splitFirstColon cs with
        | some (l, r) => some (ch :: l, r)
        | none => none

/-- The value part extracted from a reformatted `name: value` text. -/
def extract_formatted_value (formatted : String) : String :=
  match splitFirstColon formatted.data with
  | some (_, rest) => pyStrip ⟨rest⟩
  | none => formatted

/-- `_format_attribute`: reformat `"name: value"`, keep the value part, apply
only when non-empty and different from the current value. -/
def format_attribute (c : Client) (now : Nat) (attr : AttributeRec) (db : Db) :
    Db × Bool :=
  let original := attr.attribute_name ++ ": " ++ attr.attribute_value
  let formatted := pyStrip (c.generateText (format_prompt original))
  let formatted_value := extract_formatted_value formatted
  if formatted_value != "" && formatted_value != attr.attribute_value then
    ((update_attribute db now attr.id formatted_value).1, true)
  else (db, false)

/-- The attribute-stage reformatting loop over the first
`MAX_ITEMS_PER_STEP` re-fetched rows. -/
def format_attributes_loop (c : Client) (now : Nat) :
    List AttributeRec → Db → Db × Nat × List ProgressEvent
  | [], db => (db, 0, [])
  | attr :: rest, db =>
      let fa := format_attribute c now attr db
      let out := format_attributes_loop c now rest fa.1
      (out.1, (if fa.2 then 1 else 0) + out.2.1, ⟨"attribute", "processing"⟩ :: out.2.2)

/-- `_format_episode`: apply the reformatted text only when non-empty and
different from the current content.  Note there is no filter for the
connectivity sentinel `"エラー: ..."` that `OllamaClient.generate` returns
when the backend is unreachable: such a string passes this guard. -/
def format_episode (c : Client) (now : Nat) (ep : MemoryRec) (db : Db) : Db × Bool :=
  let formatted := pyStrip (c.generateText (format_prompt ep.memory_content))
  if formatted != "" && formatted != ep.memory_content then
    ((update_memory db now ep.id formatted).1, true)
  else (db, false)

/-- The episode-stage reformatting loop. -/
def format_episodes_loop (c : Client) (now : Nat) :
    List MemoryRec → Db → Db × Nat × List ProgressEvent
  | [], db => (db, 0, [])
  | ep :: rest, db =>
      let fe := format_episode c now ep db
      let out := format_episodes_loop c now rest fe.1
      (out.1, (if fe.2 then 1 else 0) + out.2.1, ⟨"episode", "processing"⟩ :: out.2.2)

/-- `_format_goal`. -/
def format_goal (c : Client) (now : Nat) (goal : GoalRec) (db : Db) : Db × Bool :=
  let formatted := pyStrip (c.generateText (format_prompt goal.goal_content))
  if formatted != "" && formatted != goal.goal_content then
    ((update_goal db now goal.id (some formatted) none none).1, true)
  else (db, false)

/-- The goal-stage reformatting loop. -/
def format_goals_loop (c : Client) (now : Nat) :
    List GoalRec → Db → Db × Nat × List ProgressEvent
  | [], db => (db, 0, [])
  | g :: rest, db =>
      let fg := format_goal c now g db
      let out := format_goals_loop c now rest fg.1
      (out.1, (if fg.2 then 1 else 0) + out.2.1, ⟨"goal", "processing"⟩ :: out.2.2)

/-- `_format_request`. -/
def format_request (c : Client) (now : Nat) (rq : RequestRec) (db : Db) : Db × Bool :=
  let formatted := pyStrip (c.generateText (format_prompt rq.request_content))
  if formatted != "" && formatted != rq.request_content then
    ((update_request db now rq.id formatted).1, true)
  else (db, false)

/-- The request-stage reformatting loop. -/
def format_requests_loop (c : Client) (now : Nat) :
    List RequestRec → Db → Db × Nat × List ProgressEvent
  | [], db => (db, 0, [])
  | rq :: rest, db =>
      let fr := format_request c now rq db
      let out := format_requests_loop c now rest fr.1
      (out.1, (if fr.2 then 1 else 0) + out.2.1, ⟨"request", "processing"⟩ :: out.2.2)

/-- The target level `_compress_old_episodes` picks: the highest threshold
crossed that exceeds the current level, else no compression. -/
def compress_target (days_old current_level : Nat) : Option Nat :=
  if days_old ≥ THRESHOLD_ancient && current_level < 3 then some 3
  else if days_old ≥ THRESHOLD_old && current_level < 2 then some 2
  else if days_old ≥ THRESHOLD_medium && current_level < 1 then some 1
  else none

/-- The loop of `_compress_old_episodes`: for each fetched active episode,
parse `created_at` (raising when the stored string does not parse), pick a
target level, ask the backend, apply only when the result is non-empty and
strictly shorter; applying writes the content (`update_memory`) and the level
(`update_compression_level`).  Returns the events, the database with all
writes committed before any exception, and the count or the exception. -/
def compress_episodes_loop (c : Client) (now : Nat) :
    List MemoryRec → Db → List ProgressEvent × Db × Except String Nat
  | [], db => ([], db, .ok 0)
  | ep :: rest, db =>
    match ep.created_at with
    | none => ([], db, .error "Invalid isoformat string")
    | some created =>
      let days_old := now - created
      match compress_target days_old ep.compression_level with
      | none => compress_episodes_loop c now rest db
      | some target_level =>
          let ev : ProgressEvent := ⟨"episode", "processing"⟩
          let compressed :=
            pyStrip (c.generateText (compress_prompt target_level ep.memory_content))
          if compressed != "" && compressed.length < ep.memory_content.length then
            let db1 := (update_memory db now ep.id compressed).1
            match update_compression_level db1 now "user_memories" ep.id target_level with
            | .error e => ([ev], db1, .error e)
            | .ok (db2, _) =>
                let out := compress_episodes_loop c now rest db2
                (ev :: out.1, out.2.1,
                 match out.2.2 with
                 | .ok n => .ok (n + 1)
                 | .error e => .error e)
          else
            let out := compress_episodes_loop c now rest db
            (ev :: out.1, out.2.1, out.2.2)

/-- `_compress_old_episodes`: compress every fetched active episode that has
crossed an age threshold above its current level. -/
def compress_old_episodes (c : Client) (now : Nat) (db : Db) :
    List ProgressEvent × Db × Except String Nat :=
  compress_episodes_loop c now (get_all_memories db true) db

/-- Observation helper: the database state after the episode stage's merge
step (`mg.db` in `_organize_episodes`). -/
def episodes_merge_db (c : Client) (now : Nat) (db : Db) : Db :=
  (if (get_all_memories db true).length ≥ 2 then
      merge_duplicate_episodes c now (get_all_memories db true) db
    else ⟨db, 0, [], []⟩ : MergeLoopOut).db

/-- Observation helper: the database state after the episode stage's merge
and reformatting steps (`fm` in `_organize_episodes`). -/
def episodes_format_db (c : Client) (now : Nat) (db : Db) : Db :=
  (format_episodes_loop c now
    ((get_all_memories (episodes_merge_db c now db) true).take MAX_ITEMS_PER_STEP)
    (episodes_merge_db c now db)).1

/-- `_organize_attributes`: conflict detection & resolution (when at least two
rows), then reformatting of the first `MAX_ITEMS_PER_STEP` re-fetched rows.
The `merged` count of its result dict is initialised to 0 and never touched:
this stage performs no duplicate detection. -/
def organize_attributes (c : Client) (now : Nat) (db : Db) : StageOut AttrGoalCounts :=
  let attributes := get_all_attributes db
  if attributes.isEmpty then
    ⟨[⟨"attribute", "skipped"⟩], db, .ok ⟨0, 0, 0⟩⟩
  else
    let ev0 : List ProgressEvent := [⟨"attribute", "processing"⟩]
    let st :=
      if attributes.length ≥ 2 then
        let conflicts := detect_conflicts_attributes c attributes
        let out := resolve_attribute_conflicts conflicts attributes db
        (out.db, out.resolved, out.events)
      else (db, 0, [])
    let attributes2 := get_all_attributes st.1
    let fm := format_attributes_loop c now (attributes2.take MAX_ITEMS_PER_STEP) st.1
    ⟨ev0 ++ st.2.2 ++ fm.2.2, fm.1, .ok ⟨0, fm.2.1, st.2.1⟩⟩

/-- `_organize_episodes`: duplicate merge (when at least two active rows),
reformatting of the first `MAX_ITEMS_PER_STEP` re-fetched rows, then
compression of old episodes. -/
def organize_episodes (c : Client) (now : Nat) (db : Db) : StageOut EpisodeCounts :=
  let episodes := get_all_memories db true
  if episodes.isEmpty then
    ⟨[⟨"episode", "skipped"⟩], db, .ok ⟨0, 0, 0⟩⟩
  else
    let ev0 : List ProgressEvent := [⟨"episode", "processing"⟩]
    let mg :=
      if episodes.length ≥ 2 then merge_duplicate_episodes c now episodes db
      else ⟨db, 0, [], []⟩
    let episodes2 := get_all_memories mg.db true
    let fm := format_episodes_loop c now (episodes2.take MAX_ITEMS_PER_STEP) mg.db
    let cp := compress_old_episodes c now fm.1
    match cp.2.2 with
    | .error e => ⟨ev0 ++ mg.events ++ fm.2.2 ++ cp.1, cp.2.1, .error e⟩
    | .ok compressed =>
        ⟨ev0 ++ mg.events ++ fm.2.2 ++ cp.1, cp.2.1, .ok ⟨mg.merged, fm.2.1, compressed⟩⟩

/-- `_organize_goals`: conflict detection & resolution over active goals (when
at least two), then reformatting.  As with attributes, `merged` stays 0: no
duplicate detection runs in this stage. -/
def organize_goals (c : Client) (now : Nat) (db : Db) : StageOut AttrGoalCounts :=
  let goals := get_all_goals db (some "active")
  if goals.isEmpty then
    ⟨[⟨"goal", "skipped"⟩], db, .ok ⟨0, 0, 0⟩⟩
  else
    let ev0 : List ProgressEvent := [⟨"goal", "processing"⟩]
    let st :=
      if goals.length ≥ 2 then
        let conflicts := detect_conflicts_goals c goals
        let out := resolve_goal_conflicts now conflicts goals db
        (out.db, out.resolved, out.events)
      else (db, 0, [])
    let goals2 := get_all_goals st.1 (some "active")
    let fm := format_goals_loop c now (goals2.take MAX_ITEMS_PER_STEP) st.1
    ⟨ev0 ++ st.2.2 ++ fm.2.2, fm.1, .ok ⟨0, fm.2.1, st.2.1⟩⟩

/-- `_organize_requests`: duplicate merge (when at least two active rows),
then reformatting; no conflict resolution and no compression. -/
def organize_requests (c : Client) (now : Nat) (db : Db) : StageOut RequestCounts :=
  let requests := get_all_requests db true
  if requests.isEmpty then
    ⟨[⟨"request", "skipped"⟩], db, .ok ⟨0, 0⟩⟩
  else
    let ev0 : List ProgressEvent := [⟨"request", "processing"⟩]
    let mg :=
      if requests.length ≥ 2 then merge_duplicate_requests c now requests db
      else ⟨db, 0, [], []⟩
    let requests2 := get_all_requests mg.db true
    let fm := format_requests_loop c now (requests2.take MAX_ITEMS_PER_STEP) mg.db
    ⟨ev0 ++ mg.events ++ fm.2.2, fm.1, .ok ⟨mg.merged, fm.2.1⟩⟩

/-- All-zero result summary (the dict `organize_all` initialises). -/
def initialResults : OrganizeResults :=
  ⟨⟨0, 0, 0⟩, ⟨0, 0, 0⟩, ⟨0, 0, 0⟩, ⟨0, 0⟩, none⟩

/-- `MemoryOrganizer.organize_all`: the four stages run sequentially in the
fixed order attributes → episodes → goals → requests inside one `try`; an
exception escaping any stage records an `error` event, stores the message
under `error` in the results, and skips every later stage. -/
def organize_all (c : Client) (now : Nat) (db : Db) :
    Db × OrganizeResults × List ProgressEvent :=
  let ev1 : List ProgressEvent := [⟨"overall", "started"⟩, ⟨"attribute", "started"⟩]
  let sa := organize_attributes c now db
  let evA := ev1 ++ sa.events
  match sa.result with
  | .error e => (sa.db, { initialResults with error := some e }, evA ++ [⟨"overall", "error"⟩])
  | .ok ra =>
    let r1 := { initialResults with attributes := ra }
    let ev2 := evA ++ [⟨"attribute", "completed"⟩, ⟨"episode", "started"⟩]
    let se := organize_episodes c now sa.db
    let evE := ev2 ++ se.events
    match se.result with
    | .error e => (se.db, { r1 with error := some e }, evE ++ [⟨"overall", "error"⟩])
    | .ok re =>
      let r2 := { r1 with episodes := re }
      let ev3 := evE ++ [⟨"episode", "completed"⟩, ⟨"goal", "started"⟩]
      let sg := organize_goals c now se.db
      let evG := ev3 ++ sg.events
      match sg.result with
      | .error e => (sg.db, { r2 with error := some e }, evG ++ [⟨"overall", "error"⟩])
      | .ok rg =>
        let r3 := { r2 with goals := rg }
        let ev4 := evG ++ [⟨"goal", "completed"⟩, ⟨"request", "started"⟩]
        let sr := organize_requests c now sg.db
        let evR := ev4 ++ sr.events
        match sr.result with
        | .error e => (sr.db, { r3 with error := some e }, evR ++ [⟨"overall", "error"⟩])
        | .ok rr =>
          (sr.db, { r3 with requests := rr },
           evR ++ [⟨"request", "completed"⟩, ⟨"overall", "completed"⟩])

/-- The stage names whose `started` events appear in a log, in log order
(observation helper for the sequencing theorems). -/
def stage_starts (log : List ProgressEvent) : List String :=
  (log.filter (fun e => e.status == "started" && e.step != "overall")).map (·.step)

/-- The fixed stage order of `organize_all`. -/
def stageOrder : List String := ["attribute", "episode", "goal", "request"]

/-- Whether a log contains an `error` event (observation helper). -/
def has_error_event (log : List ProgressEvent) : Bool :=
  log.any (fun e => e.status == "error")

/-! ## Helper lemmas -/

theorem insertBy_perm {α : Type} (le : α → α → Bool) (a : α) (l : List α) :
    (insertBy le a l).Perm (a :: l) := by
  induction l with
  | nil => simp [insertBy]
  | cons b bs ih =>
    simp only [insertBy]
    by_cases h : le a b
    · simp [h]
    · simp only [h, if_neg]
      exact (List.Perm.cons b ih).trans (List.Perm.swap a b bs)

theorem sortBy_perm {α : Type} (le : α → α → Bool) (l : List α) :
    (sortBy le l).Perm l := by
  induction l with
  | nil => simp [sortBy]
  | cons a as ih => exact (insertBy_perm le a (sortBy le as)).trans (ih.cons a)

theorem mem_sortBy {α : Type} {le : α → α → Bool} {a : α} {l : List α} :
    a ∈ sortBy le l ↔ a ∈ l := (sortBy_perm le l).mem_iff

/-- `find?` commutes with a map that preserves the predicate's value. -/
theorem find?_map_pres {α : Type} (F : α → α) (p : α → Bool)
    (hF : ∀ a, p (F a) = p a) (l : List α) :
    (l.map F).find? p = (l.find? p).map F := by
  rw [List.find?_map]
  have hpF : (p ∘ F) = p := funext hF
  rw [hpF]

/-- `find?` is unaffected by filtering out only elements that fail the
predicate. -/
theorem find?_filter_of_imp {α : Type} (p q : α → Bool) (l : List α)
    (h : ∀ a, p a = true → q a = true) :
    (l.filter q).find? p = l.find? p := by
  induction l with
  | nil => simp
  | cons a as ih =>
    by_cases hp : p a
    · simp [List.filter_cons, h a hp, hp]
    · by_cases hq : q a <;> simp [List.filter_cons, hp, hq, ih]

/-- With pairwise-distinct keys, `find?` by an element's key returns that
element. -/
theorem find?_key_nodup {α : Type} (key : α → Nat) (l : List α) (m : α)
    (hnd : (l.map key).Nodup) (hm : m ∈ l) :
    l.find? (fun a => key a == key m) = some m := by
  induction l with
  | nil => cases hm
  | cons a as ih =>
    rw [List.map_cons, List.nodup_cons] at hnd
    rcases List.mem_cons.mp hm with rfl | hm
    · rw [List.find?_cons_of_pos _ (by simp)]
    · have hk : key a ≠ key m := fun he => hnd.1 (he ▸ List.mem_map_of_mem key hm)
      rw [List.find?_cons_of_neg _ (by simp [hk])]
      exact ih hnd.2 hm

/-- `find?` over an appended list whose first part contains no match. -/
theorem find?_append_left_none {α : Type} (p : α → Bool) {l₁ : List α} (l₂ : List α)
    (h : l₁.find? p = none) : (l₁ ++ l₂).find? p = l₂.find? p := by
  simp [List.find?_append, h]

/-- Looking up key `i` after a keyed in-place update applies the update to the
found element. -/
theorem find?_update_key {α : Type} (key : α → Nat) (l : List α) (F : α → α)
    (hF : ∀ x, key (F x) = key x) (i : Nat) :
    (l.map (fun x => if key x == i then F x else x)).find? (fun x => key x == i)
      = (l.find? (fun x => key x == i)).map F := by
  rw [find?_map_pres _ _ (fun x => by by_cases h : key x == i <;> simp [h, hF])]
  cases hfind : l.find? (fun x => key x == i) with
  | none => rfl
  | some x =>
    have hx := List.find?_some hfind
    show some (if key x == i then F x else x) = some (F x)
    rw [if_pos hx]

/-- Looking up key `j` is unaffected by a keyed update of a different key. -/
theorem find?_update_key_ne {α : Type} (key : α → Nat) (l : List α) (F : α → α)
    (hF : ∀ x, key (F x) = key x) (i j : Nat) (hij : j ≠ i) :
    (l.map (fun x => if key x == i then F x else x)).find? (fun x => key x == j)
      = l.find? (fun x => key x == j) := by
  rw [find?_map_pres _ _ (fun x => by by_cases h : key x == i <;> simp [h, hF])]
  cases hfind : l.find? (fun x => key x == j) with
  | none => rfl
  | some x =>
    have hx := List.find?_some hfind
    have hxi : ¬((key x == i) = true) := by
      simp only [beq_iff_eq] at hx ⊢
      simp [hx, hij]
    show some (if key x == i then F x else x) = some x
    rw [if_neg hxi]

/-- Looking up key `i` after a keyed hard delete of `i` finds nothing. -/
theorem find?_delete_key_self {α : Type} (key : α → Nat) (l : List α) (i : Nat) :
    (l.filter (fun x => key x != i)).find? (fun x => key x == i) = none := by
  rw [List.find?_eq_none]
  intro x hx
  have := (List.mem_filter.mp hx).2
  simpa using this

/-- Looking up key `j` is unaffected by a keyed hard delete of a different
key. -/
theorem find?_delete_key_ne {α : Type} (key : α → Nat) (l : List α) (i j : Nat)
    (hij : j ≠ i) :
    (l.filter (fun x => key x != i)).find? (fun x => key x == j)
      = l.find? (fun x => key x == j) :=
  find?_filter_of_imp _ _ l (fun x hx => by
    simp only [beq_iff_eq] at hx
    simp [hx, hij])

/-! ## C10: `update_goal` with only a status -/

/-- C10: for every goal id, calling `update_goal` with only a new status
(content and priority unsupplied) leaves `goal_content` and `priority`
unchanged, and `completed_at` is assigned exactly when the supplied status is
`'completed'` (otherwise it keeps its previous value); in particular
cancelling a goal does not set `completed_at` and does not alter its text or
priority. -/
theorem update_goal_status_only_frame (db : Db) (now i : Nat) (st : String)
    (g : GoalRec) (hg : lookup_goal db i = some g) :
    ∃ g', lookup_goal (update_goal db now i none (some st) none).1 i = some g' ∧
      g'.goal_content = g.goal_content ∧
      g'.priority = g.priority ∧
      g'.goal_status = st ∧
      (st = "completed" → g'.completed_at = some now) ∧
      (st ≠ "completed" → g'.completed_at = g.completed_at) := by
  have hkey : lookup_goal (update_goal db now i none (some st) none).1 i
      = (lookup_goal db i).map (fun g =>
          { (if st == "completed"
             then { { g with goal_status := st } with completed_at := some now }
             else { g with goal_status := st }) with updated_at := now }) := by
    unfold lookup_goal update_goal
    exact find?_update_key (fun g => g.id) db.user_goals
      (fun g => { (if st == "completed"
                   then { { g with goal_status := st } with completed_at := some now }
                   else { g with goal_status := st }) with updated_at := now })
      (fun x => by by_cases h : st == "completed" <;> simp [h]) i
  rw [hkey, hg]
  by_cases h : st = "completed" <;>
    refine ⟨_, rfl, ?_⟩ <;> simp [h]

/-- C10 witness: cancelling the concrete active goal 1 keeps its text and
priority and leaves `completed_at` unset. -/
theorem update_goal_status_only_frame_witness :
    lookup_goal ⟨[], [], [⟨1, "来月までに旅行の計画を立てる", "active", 5, 0, 0, none, 0⟩], []⟩ 1
      = some ⟨1, "来月までに旅行の計画を立てる", "active", 5, 0, 0, none, 0⟩ ∧
    (∃ g', lookup_goal (update_goal
        ⟨[], [], [⟨1, "来月までに旅行の計画を立てる", "active", 5, 0, 0, none, 0⟩], []⟩
        9 1 none (some "cancelled") none).1 1 = some g' ∧
      g'.goal_content = "来月までに旅行の計画を立てる" ∧
      g'.priority = 5 ∧
      g'.goal_status = "cancelled" ∧
      ("cancelled" = "completed" → g'.completed_at = some 9) ∧
      ("cancelled" ≠ "completed" → g'.completed_at = none)) :=
  ⟨by decide,
   update_goal_status_only_frame
     ⟨[], [], [⟨1, "来月までに旅行の計画を立てる", "active", 5, 0, 0, none, 0⟩], []⟩
     9 1 "cancelled"
     ⟨1, "来月までに旅行の計画を立てる", "active", 5, 0, 0, none, 0⟩ (by decide)⟩

/-! ## C5: attribute upsert-by-name -/

/-- C5: attribute names are unique among active rows: adding an attribute
whose name already exists updates the existing row's value and updated
timestamp and returns the same identifier, so adding a name twice returns the
same id both times and a subsequent read shows exactly one row for that name
carrying the latest value. -/
theorem add_attribute_upsert (db : Db) (now1 now2 : Nat) (nm v1 v2 : String)
    (h : ∀ a ∈ db.user_attributes, a.attribute_name ≠ nm) :
    (add_attribute (add_attribute db now1 nm v1).1 now2 nm v2).2
      = (add_attribute db now1 nm v1).2 ∧
    (add_attribute (add_attribute db now1 nm v1).1 now2 nm v2).1.user_attributes.filter
        (fun a => a.attribute_name == nm)
      = [⟨next_attribute_id db, nm, v2, now1, now2, 0⟩] ∧
    (get_all_attributes (add_attribute (add_attribute db now1 nm v1).1 now2 nm v2).1).countP
        (fun a => a.attribute_name == nm) = 1 := by
  have hnone : db.user_attributes.find? (fun a => a.attribute_name == nm) = none := by
    rw [List.find?_eq_none]
    intro a ha
    simp [h a ha]
  have hfail : ∀ a ∈ db.user_attributes, (a.attribute_name == nm) = false := by
    intro a ha
    simp [h a ha]
  set newRec : AttributeRec :=
    { id := next_attribute_id db, attribute_name := nm, attribute_value := v1,
      created_at := now1, updated_at := now1, compression_level := 0 } with hnew
  have hstep1 : add_attribute db now1 nm v1
      = ({ db with user_attributes := db.user_attributes ++ [newRec] },
         next_attribute_id db) := by
    unfold add_attribute
    rw [hnone]
  have hfind2 : (db.user_attributes ++ [newRec]).find? (fun a => a.attribute_name == nm)
      = some newRec := by
    rw [find?_append_left_none _ _ hnone]
    rw [List.find?_cons_of_pos _ (by simp [hnew])]
  have hstep2 : add_attribute (add_attribute db now1 nm v1).1 now2 nm v2
      = ({ db with user_attributes := (db.user_attributes ++ [newRec]).map (fun a =>
            if a.attribute_name == nm then
              { a with attribute_value := v2, updated_at := now2 }
            else a) },
         newRec.id) := by
    rw [hstep1]
    unfold add_attribute
    rw [hfind2]
  have hfilter : ((db.user_attributes ++ [newRec]).map (fun a =>
        if a.attribute_name == nm then
          { a with attribute_value := v2, updated_at := now2 }
        else a)).filter (fun a => a.attribute_name == nm)
      = [⟨next_attribute_id db, nm, v2, now1, now2, 0⟩] := by
    rw [List.map_append, List.filter_append]
    have h1 : (db.user_attributes.map (fun a =>
        if a.attribute_name == nm then
          { a with attribute_value := v2, updated_at := now2 }
        else a)).filter (fun a => a.attribute_name == nm) = [] := by
      rw [List.filter_eq_nil_iff]
      intro a ha
      rcases List.mem_map.mp ha with ⟨b, hb, rfl⟩
      rw [hfail b hb]
      simp [hfail b hb]
    rw [h1]
    simp [hnew]
  constructor
  · rw [hstep2, hstep1]
  constructor
  · rw [hstep2]
    exact hfilter
  · rw [hstep2]
    unfold get_all_attributes
    rw [(sortBy_perm _ _).countP_eq, List.countP_eq_length_filter, hfilter]
    rfl

/-- C5 witness: the spec's concrete scenario — adding `"年齢"` with `"25歳"`
then `"26歳"` on an empty store returns id 1 both times and leaves exactly one
`"年齢"` row, holding `"26歳"`. -/
theorem add_attribute_upsert_witness :
    (∀ a ∈ (⟨[], [], [], []⟩ : Db).user_attributes, a.attribute_name ≠ "年齢") ∧
    ((add_attribute (add_attribute ⟨[], [], [], []⟩ 1 "年齢" "25歳").1 2 "年齢" "26歳").2
      = (add_attribute (⟨[], [], [], []⟩ : Db) 1 "年齢" "25歳").2 ∧
    (add_attribute (add_attribute ⟨[], [], [], []⟩ 1 "年齢" "25歳").1 2 "年齢" "26歳").1.user_attributes.filter
        (fun a => a.attribute_name == "年齢")
      = [⟨next_attribute_id ⟨[], [], [], []⟩, "年齢", "26歳", 1, 2, 0⟩] ∧
    (get_all_attributes (add_attribute (add_attribute ⟨[], [], [], []⟩ 1 "年齢" "25歳").1 2 "年齢" "26歳").1).countP
        (fun a => a.attribute_name == "年齢") = 1) :=
  ⟨by simp,
   add_attribute_upsert ⟨[], [], [], []⟩ 1 2 "年齢" "25歳" "26歳" (by simp)⟩

/-! ## C4: fail-soft extraction -/

/-- C4: for every input, if the structured generation call fails (any
`GenerationError`: connectivity, parse or schema-validation failure),
extraction returns empty candidate lists for all four categories and saves
zero records; `extract_memories` and `process_input` are total functions of
the backend's outcome — the `except Exception` handler means no exception
reaches the caller. -/
theorem extraction_fail_soft (b : StructuredBackend) (user ai : String)
    (db : Db) (now : Nat) (e : String)
    (h : generate_structured b (extraction_prompt user ai) = .error e) :
    extract_memories b user ai = emptyExtractedJson ∧
    process_input b now db user ai = (db, emptyExtractedJson, ⟨0, 0, 0, 0⟩) := by
  have hext : extract_memories b user ai = emptyExtractedJson := by
    unfold extract_memories
    rw [h]
  refine ⟨hext, ?_⟩
  unfold process_input
  rw [hext]
  rfl

/-- C4 witness: a backend whose call raises (connection refused) yields the
empty candidate set and an unchanged store with zero saved counts. -/
theorem extraction_fail_soft_witness :
    generate_structured ⟨fun _ => .error "connection refused"⟩
        (extraction_prompt "私は田中太郎です。" "こんにちは")
      = .error ("Ollama API呼び出しエラー: " ++ "connection refused") ∧
    (extract_memories ⟨fun _ => .error "connection refused"⟩ "私は田中太郎です。" "こんにちは"
        = emptyExtractedJson ∧
     process_input ⟨fun _ => .error "connection refused"⟩ 3
        ⟨[], [], [], []⟩ "私は田中太郎です。" "こんにちは"
        = (⟨[], [], [], []⟩, emptyExtractedJson, ⟨0, 0, 0, 0⟩)) :=
  ⟨rfl,
   extraction_fail_soft ⟨fun _ => .error "connection refused"⟩ "私は田中太郎です。"
     "こんにちは" ⟨[], [], [], []⟩ 3 ("Ollama API呼び出しエラー: " ++ "connection refused") rfl⟩

/-- The attribute-saving fold never touches `user_goals`. -/
theorem attrJson_fold_user_goals (now : Nat) (l : List AttributeJson) :
    ∀ acc : Db × Nat,
      ((l.foldl (fun (acc : Db × Nat) a =>
          match a.name, a.value with
          | some n, some v => ((add_attribute acc.1 now n v).1, acc.2 + 1)
          | _, _ => acc) acc).1).user_goals = acc.1.user_goals := by
  induction l with
  | nil => intro acc; rfl
  | cons a as ih =>
    intro acc
    rw [List.foldl_cons, ih]
    rcases a with ⟨an, av⟩
    cases an with
    | none => rfl
    | some n =>
      cases av with
      | none => rfl
      | some v =>
        show (add_attribute acc.1 now n v).1.user_goals = acc.1.user_goals
        unfold add_attribute
        cases acc.1.user_attributes.find? (fun x => x.attribute_name == n) <;> rfl

/-- The memory-saving fold never touches `user_goals`. -/
theorem memJson_fold_user_goals (now : Nat) (l : List MemoryJson) :
    ∀ acc : Db × Nat,
      ((l.foldl (fun (acc : Db × Nat) m =>
          match m.content with
          | some ct => ((add_memory acc.1 now ct (m.category.getD "general")).1, acc.2 + 1)
          | none => acc) acc).1).user_goals = acc.1.user_goals := by
  induction l with
  | nil => intro acc; rfl
  | cons m ms ih =>
    intro acc
    rw [List.foldl_cons, ih]
    rcases m with ⟨mc, mcat⟩
    cases mc <;> rfl

/-- The request-saving fold never touches `user_goals`. -/
theorem reqJson_fold_user_goals (now : Nat) (l : List RequestJson) :
    ∀ acc : Db × Nat,
      ((l.foldl (fun (acc : Db × Nat) r =>
          match r.content with
          | some ct => ((add_request acc.1 now ct (r.category.getD "general")).1, acc.2 + 1)
          | none => acc) acc).1).user_goals = acc.1.user_goals := by
  induction l with
  | nil => intro acc; rfl
  | cons r rs ih =>
    intro acc
    rw [List.foldl_cons, ih]
    rcases r with ⟨rc, rcat⟩
    cases rc <;> rfl

/-- Every goal present after the goal-saving fold was present before or has
the priority of some candidate (with default 5). -/
theorem goalJson_fold_mem (now : Nat) (l : List GoalJson) :
    ∀ (acc : Db × Nat) (g : GoalRec),
      g ∈ ((l.foldl (fun (acc : Db × Nat) gj =>
          match gj.content with
          | some ct => ((add_goal acc.1 now ct (gj.priority.getD 5)).1, acc.2 + 1)
          | none => acc) acc).1).user_goals →
      g ∈ acc.1.user_goals ∨ ∃ gj ∈ l, g.priority = gj.priority.getD 5 := by
  induction l with
  | nil => intro acc g hg; exact .inl hg
  | cons gj gjs ih =>
    intro acc g hg
    rw [List.foldl_cons] at hg
    rcases gj with ⟨gc, gp⟩
    cases gc with
    | none =>
      rcases ih _ g hg with h | ⟨gj', h1, h2⟩
      · exact .inl h
      · exact .inr ⟨gj', List.mem_cons_of_mem _ h1, h2⟩
    | some ct =>
      rcases ih _ g hg with h | ⟨gj', h1, h2⟩
      · have h' : g ∈ acc.1.user_goals ++
            [{ id := next_goal_id acc.1, goal_content := ct, goal_status := "active",
               priority := gp.getD 5, created_at := now, updated_at := now,
               completed_at := none, compression_level := 0 }] := h
        rcases List.mem_append.mp h' with h'' | h''
        · exact .inl h''
        · rcases List.mem_singleton.mp h'' with rfl
          exact .inr ⟨⟨some ct, gp⟩, List.mem_cons_self _ _, rfl⟩
      · exact .inr ⟨gj', List.mem_cons_of_mem _ h1, h2⟩

/-- Goals present after `save_extracted_memories` were present before or carry
a candidate's priority (default 5). -/
theorem save_user_goals (db : Db) (now : Nat) (ex : ExtractedJson) :
    ∀ g ∈ (save_extracted_memories db now ex).1.user_goals,
      g ∈ db.user_goals ∨ ∃ gj ∈ ex.goals, g.priority = gj.priority.getD 5 := by
  intro g hg
  simp only [save_extracted_memories, reqJson_fold_user_goals] at hg
  rcases goalJson_fold_mem now ex.goals _ g hg with h | hx
  · simp only [memJson_fold_user_goals, attrJson_fold_user_goals] at h
    exact .inl h
  · exact .inr hx

/-- A successful `generate_structured` call factors through a backend JSON and
its validation. -/
theorem generate_structured_ok {b : StructuredBackend} {prompt : String}
    {v : ExtractedMemories} (h : generate_structured b prompt = .ok v) :
    ∃ raw, b.structuredJson prompt = .ok raw ∧ validateExtracted raw = some v := by
  unfold generate_structured at h
  cases hj : b.structuredJson prompt with
  | error e =>
    rw [hj] at h
    exact Except.noConfusion h
  | ok raw =>
    rw [hj] at h
    have h2 : (match validateExtracted raw with
        | some vv => (Except.ok vv : Except String ExtractedMemories)
        | none => Except.error "JSONパースエラー: validation error") = Except.ok v := h
    cases hval : validateExtracted raw with
    | none =>
      rw [hval] at h2
      exact Except.noConfusion h2
    | some v' =>
      rw [hval] at h2
      have h3 : Except.ok (ε := String) v' = Except.ok v := h2
      cases h3
      exact ⟨raw, rfl, hval⟩

/-- The goals of a validated extraction come from `validateGoalItem`. -/
theorem validateExtracted_goals {raw : ExtractedJson} {v : ExtractedMemories}
    (h : validateExtracted raw = some v) :
    raw.goals.mapM validateGoalItem = some v.goals := by
  unfold validateExtracted at h
  cases hA : raw.attributes.mapM validateAttributeItem with
  | none => rw [hA] at h; exact Option.noConfusion h
  | some attrs =>
    rw [hA] at h
    cases hM : raw.memories.mapM validateMemoryItem with
    | none => rw [hM] at h; exact Option.noConfusion h
    | some mems =>
      rw [hM] at h
      cases hG : raw.goals.mapM validateGoalItem with
      | none => rw [hG] at h; exact Option.noConfusion h
      | some gs =>
        rw [hG] at h
        cases hR : raw.requests.mapM validateRequestItem with
        | none => rw [hR] at h; exact Option.noConfusion h
        | some reqs =>
          rw [hR] at h
          have h' : some (⟨attrs, mems, gs, reqs⟩ : ExtractedMemories) = some v := h
          cases h'
          rfl

/-- For the `Option` monad, members of a `mapM` image have preimages. -/
theorem mapM_option_mem {α β : Type} (f : α → Option β) (l : List α) (ys : List β)
    (h : l.mapM f = some ys) : ∀ y ∈ ys, ∃ x ∈ l, f x = some y := by
  induction l generalizing ys with
  | nil =>
    simp only [List.mapM_nil, pure, Option.some.injEq] at h
    subst h
    intro y hy
    cases hy
  | cons x xs ih =>
    rw [List.mapM_cons] at h
    rcases Option.bind_eq_some.mp h with ⟨b, hb, h2⟩
    rcases Option.bind_eq_some.mp h2 with ⟨bs, hbs, h3⟩
    have h4 : some (b :: bs) = some ys := h3
    cases h4
    intro y hy
    rcases List.mem_cons.mp hy with rfl | hy
    · exact ⟨x, List.mem_cons_self _ _, hb⟩
    · rcases ih bs hbs y hy with ⟨x', hx', hfx'⟩
      exact ⟨x', List.mem_cons_of_mem _ hx', hfx'⟩

/-- `GoalItem` validation only succeeds with an in-range priority. -/
theorem validateGoalItem_bounds (r : GoalJson) (gi : GoalItem)
    (h : validateGoalItem r = some gi) :
    1 ≤ gi.priority ∧ gi.priority ≤ 10 ∧ gi.priority = r.priority.getD 5 := by
  obtain ⟨rc, rp⟩ := r
  cases rc with
  | none => exact Option.noConfusion h
  | some c =>
    simp only [validateGoalItem] at h
    by_cases hb : 1 ≤ rp.getD 5 ∧ rp.getD 5 ≤ 10
    · rw [if_pos hb] at h
      have h' : some (⟨c, rp.getD 5⟩ : GoalItem) = some gi := h
      cases h'
      exact ⟨hb.1, hb.2, rfl⟩
    · rw [if_neg hb] at h
      exact Option.noConfusion h

/-! ## C9: goal priority validation (not clamping) -/

/-- C9 counterexample: the stored priority is not clamped to [1,10].
An extracted goal candidate with priority 99 fails `GoalItem`'s schema
validation, so the whole extraction degrades to the empty set and no goal at
all is saved (rather than a goal with an in-range priority); and the save path
itself (`save_extracted_memories` → `add_goal`) stores an out-of-range
priority verbatim. -/
theorem goal_priority_not_clamped :
    (process_input ⟨fun _ => .ok ⟨[], [], [⟨some "TOEIC900点を取る", some 99⟩], []⟩⟩ 7
        ⟨[], [], [], []⟩ "来月までにTOEIC900点を取りたい" "").1.user_goals = [] ∧
    (process_input ⟨fun _ => .ok ⟨[], [], [⟨some "TOEIC900点を取る", some 99⟩], []⟩⟩ 7
        ⟨[], [], [], []⟩ "来月までにTOEIC900点を取りたい" "").2.2.goals = 0 ∧
    (save_extracted_memories ⟨[], [], [], []⟩ 7
        ⟨[], [], [⟨some "TOEIC900点を取る", some 99⟩], []⟩).1.user_goals
      = [⟨1, "TOEIC900点を取る", "active", 99, 7, 7, none, 0⟩] ∧
    ¬((1 : Int) ≤ 99 ∧ (99 : Int) ≤ 10) := by
  refine ⟨rfl, rfl, rfl, by decide⟩

/-- C9 amended: goal priority is schema-validated to [1,10] with default 5,
not clamped: every goal record the extraction pipeline adds to the store has
priority in [1,10] (because `GoalItem` validation rejects out-of-range
candidates, failing the whole extraction fail-soft), and a candidate without a
priority validates to priority 5; the save path itself stores the candidate's
priority verbatim. -/
theorem goal_priority_validated :
    (∀ b now db user ai, ∀ g ∈ (process_input b now db user ai).1.user_goals,
       g ∈ db.user_goals ∨ (1 ≤ g.priority ∧ g.priority ≤ 10)) ∧
    (∀ ct, validateGoalItem ⟨some ct, none⟩ = some ⟨ct, 5⟩) := by
  constructor
  · intro b now db user ai g hg
    have hg1 : g ∈ (save_extracted_memories db now (extract_memories b user ai)).1.user_goals := hg
    cases hE : generate_structured b (extraction_prompt user ai) with
    | error e =>
      have hemp : extract_memories b user ai = emptyExtractedJson := by
        unfold extract_memories
        rw [hE]
      rw [hemp] at hg1
      exact .inl hg1
    | ok v =>
      have hdump : extract_memories b user ai = dumpExtracted v := by
        unfold extract_memories
        rw [hE]
      rw [hdump] at hg1
      rcases save_user_goals db now (dumpExtracted v) g hg1 with h | ⟨gj, hgj, hp⟩
      · exact .inl h
      · right
        rcases List.mem_map.mp hgj with ⟨gi, hgi, rfl⟩
        have hp' : g.priority = gi.priority := hp
        rw [hp']
        obtain ⟨raw, _, hval⟩ := generate_structured_ok hE
        obtain ⟨r, _, hr⟩ := mapM_option_mem validateGoalItem raw.goals v.goals
          (validateExtracted_goals hval) gi hgi
        obtain ⟨h1, h2, _⟩ := validateGoalItem_bounds r gi hr
        exact ⟨h1, h2⟩
  · intro ct
    show (if (1 : Int) ≤ 5 ∧ (5 : Int) ≤ 10 then some (⟨ct, 5⟩ : GoalItem) else none)
        = some ⟨ct, 5⟩
    rw [if_pos (by decide)]

/-- C9 amended witness: a backend returning a validated goal with priority 7
saves a goal whose priority is in range. -/
theorem goal_priority_validated_witness :
    (⟨1, "旅行の計画を立てる", "active", 7, 3, 3, none, 0⟩ : GoalRec) ∈
      (process_input ⟨fun _ => .ok ⟨[], [], [⟨some "旅行の計画を立てる", some 7⟩], []⟩⟩ 3
        ⟨[], [], [], []⟩ "旅行の計画を立てたい" "").1.user_goals ∧
    ((⟨1, "旅行の計画を立てる", "active", 7, 3, 3, none, 0⟩ : GoalRec) ∈
        (⟨[], [], [], []⟩ : Db).user_goals ∨
      (1 ≤ (⟨1, "旅行の計画を立てる", "active", 7, 3, 3, none, 0⟩ : GoalRec).priority ∧
       (⟨1, "旅行の計画を立てる", "active", 7, 3, 3, none, 0⟩ : GoalRec).priority ≤ 10)) :=
  ⟨by decide,
   goal_priority_validated.1 ⟨fun _ => .ok ⟨[], [], [⟨some "旅行の計画を立てる", some 7⟩], []⟩⟩
     3 ⟨[], [], [], []⟩ "旅行の計画を立てたい" ""
     ⟨1, "旅行の計画を立てる", "active", 7, 3, 3, none, 0⟩ (by decide)⟩

/-! ## C7: connectivity failure during an organization run -/

/-- C7: the error is indeed never raised (`OllamaClient.generate` returns a
sentinel error string and `Client.generateText` is total), but the enclosing
operation does NOT degrade to a no-op: during the episode stage of a run with
the backend unreachable, `_format_episode` receives the sentinel string
`"エラー: ..."`, which is non-empty and differs from the stored content, so it
is written into the record as its new content and counted as formatted.  The
code evaluated at the failing input: one active episode, backend down — the
record's content becomes the sentinel error message. -/
theorem connectivity_sentinel_overwrites_record :
    (organize_episodes
        ⟨fun _ => "エラー: Ollamaサーバーに接続できません。Ollamaが起動していることを確認してください。",
         fun _ => none, fun _ => none⟩ 10
        ⟨[], [⟨1, "昨日公園で散歩した", "general", some 10, 10, 0, 0, true⟩], [], []⟩).result
      = .ok ⟨0, 1, 0⟩ ∧
    memory_content_of (organize_episodes
        ⟨fun _ => "エラー: Ollamaサーバーに接続できません。Ollamaが起動していることを確認してください。",
         fun _ => none, fun _ => none⟩ 10
        ⟨[], [⟨1, "昨日公園で散歩した", "general", some 10, 10, 0, 0, true⟩], [], []⟩).db 1
      = some "エラー: Ollamaサーバーに接続できません。Ollamaが起動していることを確認してください。" ∧
    memory_content_of (organize_episodes
        ⟨fun _ => "エラー: Ollamaサーバーに接続できません。Ollamaが起動していることを確認してください。",
         fun _ => none, fun _ => none⟩ 10
        ⟨[], [⟨1, "昨日公園で散歩した", "general", some 10, 10, 0, 0, true⟩], [], []⟩).db 1
      ≠ memory_content_of ⟨[], [⟨1, "昨日公園で散歩した", "general", some 10, 10, 0, 0, true⟩], [], []⟩ 1 :=
  ⟨rfl, rfl, by decide⟩

/-! ## C8: which stages run duplicate merge -/

/-- C8 counterexample: the attributes stage does not follow the shared
per-stage shape's step 1.  With two active attribute rows and a backend that
reports the duplicate pair (1,2), the stage executes no merge: its `merged`
count is 0 and row 2 is not removed (both rows are still present). -/
theorem attributes_stage_no_merge_counterexample :
    (organize_attributes
        ⟨fun _ => "X", fun _ => some [⟨1, 2⟩], fun _ => some []⟩ 5
        ⟨[⟨1, "呼び名", "太郎", 0, 0, 0⟩, ⟨2, "ニックネーム", "タロウ", 0, 1, 0⟩], [], [], []⟩).result
      = .ok ⟨0, 2, 0⟩ ∧
    lookup_attribute (organize_attributes
        ⟨fun _ => "X", fun _ => some [⟨1, 2⟩], fun _ => some []⟩ 5
        ⟨[⟨1, "呼び名", "太郎", 0, 0, 0⟩, ⟨2, "ニックネーム", "タロウ", 0, 1, 0⟩], [], [], []⟩).db 1
      ≠ none ∧
    lookup_attribute (organize_attributes
        ⟨fun _ => "X", fun _ => some [⟨1, 2⟩], fun _ => some []⟩ 5
        ⟨[⟨1, "呼び名", "太郎", 0, 0, 0⟩, ⟨2, "ニックネーム", "タロウ", 0, 1, 0⟩], [], [], []⟩).db 2
      ≠ none :=
  ⟨rfl, by decide, by decide⟩

/-- The attribute-formatting loop depends on the client only through
`generateText`. -/
theorem format_attributes_loop_congr (c c' : Client)
    (h : c.generateText = c'.generateText) (now : Nat) (l : List AttributeRec) :
    ∀ db, format_attributes_loop c now l db = format_attributes_loop c' now l db := by
  induction l with
  | nil => intro db; rfl
  | cons a as ih =>
    intro db
    simp only [format_attributes_loop]
    have hfa : format_attribute c now a db = format_attribute c' now a db := by
      unfold format_attribute
      rw [h]
    rw [hfa, ih]

/-- The goal-formatting loop depends on the client only through
`generateText`. -/
theorem format_goals_loop_congr (c c' : Client)
    (h : c.generateText = c'.generateText) (now : Nat) (l : List GoalRec) :
    ∀ db, format_goals_loop c now l db = format_goals_loop c' now l db := by
  induction l with
  | nil => intro db; rfl
  | cons g gs ih =>
    intro db
    simp only [format_goals_loop]
    have hfg : format_goal c now g db = format_goal c' now g db := by
      unfold format_goal
      rw [h]
    rw [hfg, ih]

/-- C8 amended: only the episodic-memory and request stages run duplicate
detection & merge; the attributes and goals stages run conflict resolution and
reformatting only — their `merged` count is always 0, they never raise, and
their outcome is independent of the duplicate-detection oracle. -/
theorem attr_goal_stages_no_duplicate_merge :
    (∀ c now db, ∃ counts, (organize_attributes c now db).result = .ok counts ∧
       counts.merged = 0) ∧
    (∀ c now db, ∃ counts, (organize_goals c now db).result = .ok counts ∧
       counts.merged = 0) ∧
    (∀ gT gD gD2 gC now db,
       organize_attributes ⟨gT, gD, gC⟩ now db = organize_attributes ⟨gT, gD2, gC⟩ now db) ∧
    (∀ gT gD gD2 gC now db,
       organize_goals ⟨gT, gD, gC⟩ now db = organize_goals ⟨gT, gD2, gC⟩ now db) := by
  refine ⟨?_, ?_, ?_, ?_⟩
  · intro c now db
    simp only [organize_attributes]
    split
    · exact ⟨⟨0, 0, 0⟩, rfl, rfl⟩
    · exact ⟨_, rfl, rfl⟩
  · intro c now db
    simp only [organize_goals]
    split
    · exact ⟨⟨0, 0, 0⟩, rfl, rfl⟩
    · exact ⟨_, rfl, rfl⟩
  · intro gT gD gD2 gC now db
    simp only [organize_attributes, detect_conflicts_attributes]
    rw [format_attributes_loop_congr ⟨gT, gD, gC⟩ ⟨gT, gD2, gC⟩ rfl]
  · intro gT gD gD2 gC now db
    simp only [organize_goals, detect_conflicts_goals]
    rw [format_goals_loop_congr ⟨gT, gD, gC⟩ ⟨gT, gD2, gC⟩ rfl]

/-! ## C2: first-claim-wins consumption -/

/-- Every pair the episode-merge loop acts on has both ids outside the
incoming `processed_ids` set and comes from the reported list. -/
theorem merge_episodes_loop_acted_free (c : Client) (now : Nat)
    (episodes : List MemoryRec) :
    ∀ (dups : List DuplicatePair) (processed : List Nat) (db : Db),
      ∀ p ∈ (merge_episodes_loop c now episodes dups processed db).acted,
        p.id1 ∉ processed ∧ p.id2 ∉ processed ∧ p ∈ dups := by
  intro dups
  induction dups with
  | nil => intro processed db p hp; cases hp
  | cons d rest ih =>
    intro processed db p hp
    simp only [merge_episodes_loop] at hp
    by_cases hc : (processed.contains d.id1 || processed.contains d.id2) = true
    · rw [if_pos hc] at hp
      obtain ⟨h1, h2, h3⟩ := ih processed db p hp
      exact ⟨h1, h2, List.mem_cons_of_mem _ h3⟩
    · rw [if_neg hc] at hp
      cases hf1 : episodes.find? (fun e => e.id == d.id1) with
      | none =>
        rw [hf1] at hp
        obtain ⟨h1, h2, h3⟩ := ih processed db p hp
        exact ⟨h1, h2, List.mem_cons_of_mem _ h3⟩
      | some ep1 =>
        rw [hf1] at hp
        cases hf2 : episodes.find? (fun e => e.id == d.id2) with
        | none =>
          rw [hf2] at hp
          obtain ⟨h1, h2, h3⟩ := ih processed db p hp
          exact ⟨h1, h2, List.mem_cons_of_mem _ h3⟩
        | some ep2 =>
          rw [hf2] at hp
          have hp' : p = d ∨ p ∈ (merge_episodes_loop c now episodes rest
              (d.id1 :: d.id2 :: processed) ((delete_memory (update_memory db now d.id1
                (pyStrip (c.generateText (merge_prompt ep1.memory_content
                  ep2.memory_content)))).1 now d.id2 false).1)).acted :=
            List.mem_cons.mp hp
          rcases hp' with rfl | hp'
          · have hc1 : p.id1 ∉ processed := by
              intro hmem
              apply hc
              simp [List.contains, hmem]
            have hc2 : p.id2 ∉ processed := by
              intro hmem
              apply hc
              simp [List.contains, hmem]
            exact ⟨hc1, hc2, List.mem_cons_self _ _⟩
          · obtain ⟨h1, h2, h3⟩ := ih _ _ p hp'
            refine ⟨fun hmem => h1 (by simp [hmem]), fun hmem => h2 (by simp [hmem]),
              List.mem_cons_of_mem _ h3⟩

/-- The pairs the episode-merge loop acts on are pairwise id-disjoint. -/
theorem merge_episodes_loop_pairwise (c : Client) (now : Nat)
    (episodes : List MemoryRec) :
    ∀ (dups : List DuplicatePair) (processed : List Nat) (db : Db),
      ((merge_episodes_loop c now episodes dups processed db).acted).Pairwise
        (fun p q => p.id1 ≠ q.id1 ∧ p.id1 ≠ q.id2 ∧ p.id2 ≠ q.id1 ∧ p.id2 ≠ q.id2) := by
  intro dups
  induction dups with
  | nil => intro processed db; exact List.Pairwise.nil
  | cons d rest ih =>
    intro processed db
    simp only [merge_episodes_loop]
    by_cases hc : (processed.contains d.id1 || processed.contains d.id2) = true
    · rw [if_pos hc]
      exact ih processed db
    · rw [if_neg hc]
      cases hf1 : episodes.find? (fun e => e.id == d.id1) with
      | none => exact ih processed db
      | some ep1 =>
        cases hf2 : episodes.find? (fun e => e.id == d.id2) with
        | none => exact ih processed db
        | some ep2 =>
          show List.Pairwise _ (d :: (merge_episodes_loop c now episodes rest
            (d.id1 :: d.id2 :: processed) _).acted)
          refine List.Pairwise.cons ?_ (ih _ _)
          intro q hq
          obtain ⟨hq1, hq2, _⟩ :=
            merge_episodes_loop_acted_free c now episodes rest
              (d.id1 :: d.id2 :: processed) _ q hq
          have e11 : q.id1 ≠ d.id1 := fun he => hq1 (by simp [he])
          have e12 : q.id1 ≠ d.id2 := fun he => hq1 (by simp [he])
          have e21 : q.id2 ≠ d.id1 := fun he => hq2 (by simp [he])
          have e22 : q.id2 ≠ d.id2 := fun he => hq2 (by simp [he])
          exact ⟨e11.symm, e21.symm, e12.symm, e22.symm⟩

/-! ## C6: conflict resolution removes the older side -/

/-- `lookup_goal` is unaffected by an `update_goal` of a different id. -/
theorem lookup_goal_update_ne (db : Db) (now i j : Nat) (ct st : Option String)
    (pr : Option Int) (hij : j ≠ i) :
    lookup_goal (update_goal db now i ct st pr).1 j = lookup_goal db j := by
  unfold lookup_goal update_goal
  refine find?_update_key_ne (fun g : GoalRec => g.id) db.user_goals _ ?_ i j hij
  intro x
  cases ct <;> cases st <;> cases pr <;> simp [apply_ite]

/-- `lookup_goal` after cancelling a goal id. -/
theorem lookup_goal_cancel (db : Db) (now i : Nat) :
    lookup_goal (update_goal db now i none (some "cancelled") none).1 i
      = (lookup_goal db i).map
          (fun g => { g with goal_status := "cancelled", updated_at := now }) := by
  unfold lookup_goal update_goal
  refine find?_update_key (fun g : GoalRec => g.id) db.user_goals
    (fun g => { g with goal_status := "cancelled", updated_at := now }) ?_ i
  intro x
  rfl

/-- `lookup_attribute` after a hard delete of the same id. -/
theorem lookup_attribute_delete_self (db : Db) (i : Nat) :
    lookup_attribute (delete_attribute db i).1 i = none := by
  unfold lookup_attribute delete_attribute
  exact find?_delete_key_self (fun a : AttributeRec => a.id) db.user_attributes i

/-- `lookup_attribute` is unaffected by a hard delete of a different id. -/
theorem lookup_attribute_delete_ne (db : Db) (i j : Nat) (hij : j ≠ i) :
    lookup_attribute (delete_attribute db i).1 j = lookup_attribute db j := by
  unfold lookup_attribute delete_attribute
  exact find?_delete_key_ne (fun a : AttributeRec => a.id) db.user_attributes i j hij

/-- Every pair the goal-conflict loop acts on has both ids outside the
incoming `processed_ids` set. -/
theorem goal_conflicts_acted_free (now : Nat) (goals : List GoalRec) :
    ∀ (conflicts : List ConflictPair) (processed : List Nat) (db : Db),
      ∀ p ∈ (resolve_goal_conflicts_loop now goals conflicts processed db).acted,
        p.id1 ∉ processed ∧ p.id2 ∉ processed := by
  intro conflicts
  induction conflicts with
  | nil => intro processed db p hp; cases hp
  | cons cf rest ih =>
    intro processed db p hp
    simp only [resolve_goal_conflicts_loop] at hp
    by_cases hc : (processed.contains cf.id1 || processed.contains cf.id2) = true
    · rw [if_pos hc] at hp
      exact ih processed db p hp
    · rw [if_neg hc] at hp
      cases hf1 : goals.find? (fun g => g.id == cf.id1) with
      | none => rw [hf1] at hp; exact ih processed db p hp
      | some g1 =>
        rw [hf1] at hp
        cases hf2 : goals.find? (fun g => g.id == cf.id2) with
        | none => rw [hf2] at hp; exact ih processed db p hp
        | some g2 =>
          rw [hf2] at hp
          rcases List.mem_cons.mp hp with rfl | hp'
          · refine ⟨fun hmem => hc (by simp [List.contains, hmem]),
              fun hmem => hc (by simp [List.contains, hmem])⟩
          · obtain ⟨h1, h2⟩ := ih _ _ p hp'
            exact ⟨fun hmem => h1 (by simp [hmem]), fun hmem => h2 (by simp [hmem])⟩

/-- Ids never acted on keep their goal record through the goal-conflict
loop. -/
theorem goal_conflicts_frame (now : Nat) (goals : List GoalRec) :
    ∀ (conflicts : List ConflictPair) (processed : List Nat) (db : Db) (j : Nat),
      (∀ p ∈ (resolve_goal_conflicts_loop now goals conflicts processed db).acted,
         j ≠ p.id1 ∧ j ≠ p.id2) →
      lookup_goal (resolve_goal_conflicts_loop now goals conflicts processed db).db j
        = lookup_goal db j := by
  intro conflicts
  induction conflicts with
  | nil => intro processed db j _; rfl
  | cons cf rest ih =>
    intro processed db j hj
    simp only [resolve_goal_conflicts_loop] at hj ⊢
    by_cases hc : (processed.contains cf.id1 || processed.contains cf.id2) = true
    · rw [if_pos hc] at hj ⊢
      exact ih processed db j hj
    · rw [if_neg hc] at hj ⊢
      cases hf1 : goals.find? (fun g => g.id == cf.id1) with
      | none =>
        rw [hf1] at hj
        exact ih processed db j hj
      | some g1 =>
        rw [hf1] at hj
        cases hf2 : goals.find? (fun g => g.id == cf.id2) with
        | none =>
          rw [hf2] at hj
          exact ih processed db j hj
        | some g2 =>
          rw [hf2] at hj
          have hjcf : j ≠ cf.id1 ∧ j ≠ cf.id2 := hj cf (List.mem_cons_self _ _)
          have holder : j ≠ (if cf.newer_id == cf.id2 then cf.id1 else cf.id2) := by
            by_cases hb : (cf.newer_id == cf.id2) = true
            · rw [if_pos hb]; exact hjcf.1
            · rw [if_neg hb]; exact hjcf.2
          have hstep := ih (cf.id1 :: cf.id2 :: processed)
            (update_goal db now (if cf.newer_id == cf.id2 then cf.id1 else cf.id2)
              none (some "cancelled") none).1 j
            (fun p hp => hj p (List.mem_cons_of_mem _ hp))
          exact hstep.trans
            (lookup_goal_update_ne db now _ j none (some "cancelled") none holder)

/-- The per-pair postcondition of the goal-conflict loop: for every acted-on
pair with distinct ids, the side other than `newer_id` ends with status
`cancelled` (other fields intact), and `newer_id`'s record is unchanged (when
`newer_id` is one of the pair). -/
theorem goal_conflicts_post (now : Nat) (goals : List GoalRec) :
    ∀ (conflicts : List ConflictPair) (processed : List Nat) (db : Db)
      (p : ConflictPair),
      p ∈ (resolve_goal_conflicts_loop now goals conflicts processed db).acted →
      p.id1 ≠ p.id2 →
      (lookup_goal (resolve_goal_conflicts_loop now goals conflicts processed db).db
          (if p.newer_id == p.id2 then p.id1 else p.id2)
        = (lookup_goal db (if p.newer_id == p.id2 then p.id1 else p.id2)).map
            (fun g => { g with goal_status := "cancelled", updated_at := now })) ∧
      ((p.newer_id = p.id1 ∨ p.newer_id = p.id2) →
        lookup_goal (resolve_goal_conflicts_loop now goals conflicts processed db).db
            p.newer_id
          = lookup_goal db p.newer_id) := by
  intro conflicts
  induction conflicts with
  | nil => intro processed db p hp; cases hp
  | cons cf rest ih =>
    intro processed db p hp hdist
    simp only [resolve_goal_conflicts_loop] at hp ⊢
    by_cases hc : (processed.contains cf.id1 || processed.contains cf.id2) = true
    · rw [if_pos hc] at hp ⊢
      exact ih processed db p hp hdist
    · rw [if_neg hc] at hp ⊢
      cases hf1 : goals.find? (fun g => g.id == cf.id1) with
      | none => rw [hf1] at hp; exact ih processed db p hp hdist
      | some g1 =>
        rw [hf1] at hp
        cases hf2 : goals.find? (fun g => g.id == cf.id2) with
        | none => rw [hf2] at hp; exact ih processed db p hp hdist
        | some g2 =>
          rw [hf2] at hp
          rcases List.mem_cons.mp hp with rfl | hp'
          · -- the head pair acts: the loop cancelled exactly its older side
            have hfree : ∀ q ∈ (resolve_goal_conflicts_loop now goals rest
                (p.id1 :: p.id2 :: processed)
                (update_goal db now (if p.newer_id == p.id2 then p.id1 else p.id2)
                  none (some "cancelled") none).1).acted,
                q.id1 ∉ p.id1 :: p.id2 :: processed ∧
                q.id2 ∉ p.id1 :: p.id2 :: processed :=
              goal_conflicts_acted_free now goals rest _ _
            have hold_mem : ∀ j, (j = p.id1 ∨ j = p.id2) →
                ∀ q ∈ (resolve_goal_conflicts_loop now goals rest
                  (p.id1 :: p.id2 :: processed)
                  (update_goal db now (if p.newer_id == p.id2 then p.id1 else p.id2)
                    none (some "cancelled") none).1).acted,
                j ≠ q.id1 ∧ j ≠ q.id2 := by
              intro j hj q hq
              obtain ⟨hq1, hq2⟩ := hfree q hq
              constructor
              · intro he
                rcases hj with rfl | rfl
                · exact hq1 (by simp [he.symm])
                · exact hq1 (by simp [he.symm])
              · intro he
                rcases hj with rfl | rfl
                · exact hq2 (by simp [he.symm])
                · exact hq2 (by simp [he.symm])
            have holder_mem : (if p.newer_id == p.id2 then p.id1 else p.id2) = p.id1 ∨
                (if p.newer_id == p.id2 then p.id1 else p.id2) = p.id2 := by
              by_cases hb : (p.newer_id == p.id2) = true
              · rw [if_pos hb]; exact .inl rfl
              · rw [if_neg hb]; exact .inr rfl
            have hframe_older := goal_conflicts_frame now goals rest
              (p.id1 :: p.id2 :: processed)
              (update_goal db now (if p.newer_id == p.id2 then p.id1 else p.id2)
                none (some "cancelled") none).1
              (if p.newer_id == p.id2 then p.id1 else p.id2)
              (hold_mem _ holder_mem)
            constructor
            · exact hframe_older.trans (lookup_goal_cancel db now _)
            · intro hnewer
              have hnewer_mem : p.newer_id = p.id1 ∨ p.newer_id = p.id2 := hnewer
              have hframe_newer := goal_conflicts_frame now goals rest
                (p.id1 :: p.id2 :: processed)
                (update_goal db now (if p.newer_id == p.id2 then p.id1 else p.id2)
                  none (some "cancelled") none).1
                p.newer_id (hold_mem _ hnewer_mem)
              have hne : p.newer_id ≠ (if p.newer_id == p.id2 then p.id1 else p.id2) := by
                by_cases hb : (p.newer_id == p.id2) = true
                · rw [if_pos hb]
                  have hnb : p.newer_id = p.id2 := by simpa using hb
                  rw [hnb]
                  exact fun he => hdist he.symm
                · rw [if_neg hb]
                  simpa using hb
              exact hframe_newer.trans
                (lookup_goal_update_ne db now _ _ none (some "cancelled") none hne)
          · -- a later pair: transport its postcondition through the head update
            have hfree2 := goal_conflicts_acted_free now goals rest
              (cf.id1 :: cf.id2 :: processed)
              (update_goal db now (if cf.newer_id == cf.id2 then cf.id1 else cf.id2)
                none (some "cancelled") none).1 p hp'
            obtain ⟨hp1, hp2⟩ := hfree2
            have hne_cf : ∀ j, (j = p.id1 ∨ j = p.id2) →
                j ≠ (if cf.newer_id == cf.id2 then cf.id1 else cf.id2) := by
              intro j hj
              have hj1 : j ≠ cf.id1 := by
                rcases hj with rfl | rfl
                · exact fun he => hp1 (by simp [he])
                · exact fun he => hp2 (by simp [he])
              have hj2 : j ≠ cf.id2 := by
                rcases hj with rfl | rfl
                · exact fun he => hp1 (by simp [he])
                · exact fun he => hp2 (by simp [he])
              by_cases hb : (cf.newer_id == cf.id2) = true
              · rw [if_pos hb]; exact hj1
              · rw [if_neg hb]; exact hj2
            obtain ⟨ha, hb⟩ := ih (cf.id1 :: cf.id2 :: processed) _ p hp' hdist
            have holder_mem : (if p.newer_id == p.id2 then p.id1 else p.id2) = p.id1 ∨
                (if p.newer_id == p.id2 then p.id1 else p.id2) = p.id2 := by
              by_cases hbq : (p.newer_id == p.id2) = true
              · rw [if_pos hbq]; exact .inl rfl
              · rw [if_neg hbq]; exact .inr rfl
            constructor
            · exact ha.trans (congrArg
                (Option.map (fun g => { g with goal_status := "cancelled", updated_at := now }))
                (lookup_goal_update_ne db now _ _ none (some "cancelled") none
                  (hne_cf _ holder_mem)))
            · intro hnewer
              exact (hb hnewer).trans
                (lookup_goal_update_ne db now _ _ none (some "cancelled") none
                  (hne_cf _ hnewer))

/-- Every pair the attribute-conflict loop acts on has both ids outside the
incoming `processed_ids` set. -/
theorem attribute_conflicts_acted_free (attributes : List AttributeRec) :
    ∀ (conflicts : List ConflictPair) (processed : List Nat) (db : Db),
      ∀ p ∈ (resolve_attribute_conflicts_loop attributes conflicts processed db).acted,
        p.id1 ∉ processed ∧ p.id2 ∉ processed := by
  intro conflicts
  induction conflicts with
  | nil => intro processed db p hp; cases hp
  | cons cf rest ih =>
    intro processed db p hp
    simp only [resolve_attribute_conflicts_loop] at hp
    by_cases hc : (processed.contains cf.id1 || processed.contains cf.id2) = true
    · rw [if_pos hc] at hp
      exact ih processed db p hp
    · rw [if_neg hc] at hp
      cases hf1 : attributes.find? (fun a => a.id == cf.id1) with
      | none => rw [hf1] at hp; exact ih processed db p hp
      | some a1 =>
        rw [hf1] at hp
        cases hf2 : attributes.find? (fun a => a.id == cf.id2) with
        | none => rw [hf2] at hp; exact ih processed db p hp
        | some a2 =>
          rw [hf2] at hp
          rcases List.mem_cons.mp hp with rfl | hp'
          · refine ⟨fun hmem => hc (by simp [List.contains, hmem]),
              fun hmem => hc (by simp [List.contains, hmem])⟩
          · obtain ⟨h1, h2⟩ := ih _ _ p hp'
            exact ⟨fun hmem => h1 (by simp [hmem]), fun hmem => h2 (by simp [hmem])⟩

/-- Ids never acted on keep their attribute record through the
attribute-conflict loop. -/
theorem attribute_conflicts_frame (attributes : List AttributeRec) :
    ∀ (conflicts : List ConflictPair) (processed : List Nat) (db : Db) (j : Nat),
      (∀ p ∈ (resolve_attribute_conflicts_loop attributes conflicts processed db).acted,
         j ≠ p.id1 ∧ j ≠ p.id2) →
      lookup_attribute (resolve_attribute_conflicts_loop attributes conflicts processed db).db j
        = lookup_attribute db j := by
  intro conflicts
  induction conflicts with
  | nil => intro processed db j _; rfl
  | cons cf rest ih =>
    intro processed db j hj
    simp only [resolve_attribute_conflicts_loop] at hj ⊢
    by_cases hc : (processed.contains cf.id1 || processed.contains cf.id2) = true
    · rw [if_pos hc] at hj ⊢
      exact ih processed db j hj
    · rw [if_neg hc] at hj ⊢
      cases hf1 : attributes.find? (fun a => a.id == cf.id1) with
      | none =>
        rw [hf1] at hj
        exact ih processed db j hj
      | some a1 =>
        rw [hf1] at hj
        cases hf2 : attributes.find? (fun a => a.id == cf.id2) with
        | none =>
          rw [hf2] at hj
          exact ih processed db j hj
        | some a2 =>
          rw [hf2] at hj
          have hjcf : j ≠ cf.id1 ∧ j ≠ cf.id2 := hj cf (List.mem_cons_self _ _)
          have holder : j ≠ (if cf.newer_id == cf.id2 then cf.id1 else cf.id2) := by
            by_cases hb : (cf.newer_id == cf.id2) = true
            · rw [if_pos hb]; exact hjcf.1
            · rw [if_neg hb]; exact hjcf.2
          have hstep := ih (cf.id1 :: cf.id2 :: processed)
            (delete_attribute db (if cf.newer_id == cf.id2 then cf.id1 else cf.id2)).1 j
            (fun p hp => hj p (List.mem_cons_of_mem _ hp))
          exact hstep.trans (lookup_attribute_delete_ne db _ j holder)

/-- The per-pair postcondition of the attribute-conflict loop: for every
acted-on pair with distinct ids, the side other than `newer_id` is hard
deleted and `newer_id`'s record is unchanged (when `newer_id` is one of the
pair). -/
theorem attribute_conflicts_post (attributes : List AttributeRec) :
    ∀ (conflicts : List ConflictPair) (processed : List Nat) (db : Db)
      (p : ConflictPair),
      p ∈ (resolve_attribute_conflicts_loop attributes conflicts processed db).acted →
      p.id1 ≠ p.id2 →
      (lookup_attribute (resolve_attribute_conflicts_loop attributes conflicts processed db).db
          (if p.newer_id == p.id2 then p.id1 else p.id2) = none) ∧
      ((p.newer_id = p.id1 ∨ p.newer_id = p.id2) →
        lookup_attribute
            (resolve_attribute_conflicts_loop attributes conflicts processed db).db p.newer_id
          = lookup_attribute db p.newer_id) := by
  intro conflicts
  induction conflicts with
  | nil => intro processed db p hp; cases hp
  | cons cf rest ih =>
    intro processed db p hp hdist
    simp only [resolve_attribute_conflicts_loop] at hp ⊢
    by_cases hc : (processed.contains cf.id1 || processed.contains cf.id2) = true
    · rw [if_pos hc] at hp ⊢
      exact ih processed db p hp hdist
    · rw [if_neg hc] at hp ⊢
      cases hf1 : attributes.find? (fun a => a.id == cf.id1) with
      | none => rw [hf1] at hp; exact ih processed db p hp hdist
      | some a1 =>
        rw [hf1] at hp
        cases hf2 : attributes.find? (fun a => a.id == cf.id2) with
        | none => rw [hf2] at hp; exact ih processed db p hp hdist
        | some a2 =>
          rw [hf2] at hp
          rcases List.mem_cons.mp hp with rfl | hp'
          · have hfree : ∀ q ∈ (resolve_attribute_conflicts_loop attributes rest
                (p.id1 :: p.id2 :: processed)
                (delete_attribute db (if p.newer_id == p.id2 then p.id1 else p.id2)).1).acted,
                q.id1 ∉ p.id1 :: p.id2 :: processed ∧
                q.id2 ∉ p.id1 :: p.id2 :: processed :=
              attribute_conflicts_acted_free attributes rest _ _
            have hold_mem : ∀ j, (j = p.id1 ∨ j = p.id2) →
                ∀ q ∈ (resolve_attribute_conflicts_loop attributes rest
                  (p.id1 :: p.id2 :: processed)
                  (delete_attribute db (if p.newer_id == p.id2 then p.id1 else p.id2)).1).acted,
                j ≠ q.id1 ∧ j ≠ q.id2 := by
              intro j hj q hq
              obtain ⟨hq1, hq2⟩ := hfree q hq
              constructor
              · intro he
                rcases hj with rfl | rfl
                · exact hq1 (by simp [he.symm])
                · exact hq1 (by simp [he.symm])
              · intro he
                rcases hj with rfl | rfl
                · exact hq2 (by simp [he.symm])
                · exact hq2 (by simp [he.symm])
            have holder_mem : (if p.newer_id == p.id2 then p.id1 else p.id2) = p.id1 ∨
                (if p.newer_id == p.id2 then p.id1 else p.id2) = p.id2 := by
              by_cases hb : (p.newer_id == p.id2) = true
              · rw [if_pos hb]; exact .inl rfl
              · rw [if_neg hb]; exact .inr rfl
            have hframe_older := attribute_conflicts_frame attributes rest
              (p.id1 :: p.id2 :: processed)
              (delete_attribute db (if p.newer_id == p.id2 then p.id1 else p.id2)).1
              (if p.newer_id == p.id2 then p.id1 else p.id2)
              (hold_mem _ holder_mem)
            constructor
            · exact hframe_older.trans (lookup_attribute_delete_self db _)
            · intro hnewer
              have hframe_newer := attribute_conflicts_frame attributes rest
                (p.id1 :: p.id2 :: processed)
                (delete_attribute db (if p.newer_id == p.id2 then p.id1 else p.id2)).1
                p.newer_id (hold_mem _ hnewer)
              have hne : p.newer_id ≠ (if p.newer_id == p.id2 then p.id1 else p.id2) := by
                by_cases hb : (p.newer_id == p.id2) = true
                · rw [if_pos hb]
                  have hnb : p.newer_id = p.id2 := by simpa using hb
                  rw [hnb]
                  exact fun he => hdist he.symm
                · rw [if_neg hb]
                  simpa using hb
              exact hframe_newer.trans (lookup_attribute_delete_ne db _ _ hne)
          · have hfree2 := attribute_conflicts_acted_free attributes rest
              (cf.id1 :: cf.id2 :: processed)
              (delete_attribute db (if cf.newer_id == cf.id2 then cf.id1 else cf.id2)).1 p hp'
            obtain ⟨hp1, hp2⟩ := hfree2
            have hne_cf : ∀ j, (j = p.id1 ∨ j = p.id2) →
                j ≠ (if cf.newer_id == cf.id2 then cf.id1 else cf.id2) := by
              intro j hj
              have hj1 : j ≠ cf.id1 := by
                rcases hj with rfl | rfl
                · exact fun he => hp1 (by simp [he])
                · exact fun he => hp2 (by simp [he])
              have hj2 : j ≠ cf.id2 := by
                rcases hj with rfl | rfl
                · exact fun he => hp1 (by simp [he])
                · exact fun he => hp2 (by simp [he])
              by_cases hb : (cf.newer_id == cf.id2) = true
              · rw [if_pos hb]; exact hj1
              · rw [if_neg hb]; exact hj2
            obtain ⟨ha, hb⟩ := ih (cf.id1 :: cf.id2 :: processed) _ p hp' hdist
            have holder_mem : (if p.newer_id == p.id2 then p.id1 else p.id2) = p.id1 ∨
                (if p.newer_id == p.id2 then p.id1 else p.id2) = p.id2 := by
              by_cases hbq : (p.newer_id == p.id2) = true
              · rw [if_pos hbq]; exact .inl rfl
              · rw [if_neg hbq]; exact .inr rfl
            constructor
            · exact ha
            · intro hnewer
              exact (hb hnewer).trans (lookup_attribute_delete_ne db _ _ (hne_cf _ hnewer))

/-- C6: in conflict resolution, for every acted-on pair (with distinct ids and
`newer_id` one of them), the side other than `newer_id` is removed — status
set to `cancelled` for goals, hard delete for attributes — and the newer
record is left unchanged. -/
theorem conflict_resolution_keeps_newer :
    (∀ now conflicts goals db (p : ConflictPair),
       p ∈ (resolve_goal_conflicts now conflicts goals db).acted →
       p.id1 ≠ p.id2 →
       (p.newer_id = p.id1 ∨ p.newer_id = p.id2) →
       (lookup_goal (resolve_goal_conflicts now conflicts goals db).db
           (if p.newer_id == p.id2 then p.id1 else p.id2)
         = (lookup_goal db (if p.newer_id == p.id2 then p.id1 else p.id2)).map
             (fun g => { g with goal_status := "cancelled", updated_at := now })) ∧
       lookup_goal (resolve_goal_conflicts now conflicts goals db).db p.newer_id
         = lookup_goal db p.newer_id) ∧
    (∀ conflicts attributes db (p : ConflictPair),
       p ∈ (resolve_attribute_conflicts conflicts attributes db).acted →
       p.id1 ≠ p.id2 →
       (p.newer_id = p.id1 ∨ p.newer_id = p.id2) →
       (lookup_attribute (resolve_attribute_conflicts conflicts attributes db).db
           (if p.newer_id == p.id2 then p.id1 else p.id2) = none) ∧
       lookup_attribute (resolve_attribute_conflicts conflicts attributes db).db p.newer_id
         = lookup_attribute db p.newer_id) := by
  constructor
  · intro now conflicts goals db p hp hdist hnewer
    obtain ⟨h1, h2⟩ := goal_conflicts_post now goals conflicts [] db p hp hdist
    exact ⟨h1, h2 hnewer⟩
  · intro conflicts attributes db p hp hdist hnewer
    obtain ⟨h1, h2⟩ := attribute_conflicts_post attributes conflicts [] db p hp hdist
    exact ⟨h1, h2 hnewer⟩

/-- C6 witness: the spec's concrete scenario — two active goals reported
conflicting with `newer_id` 2 end with goal 1 cancelled (text and priority
intact) and goal 2 unchanged and active. -/
theorem conflict_resolution_keeps_newer_witness :
    ((⟨1, 2, 2⟩ : ConflictPair) ∈ (resolve_goal_conflicts 9 [⟨1, 2, 2⟩]
        [⟨1, "来月までに旅行の計画を立てる", "active", 5, 0, 0, none, 0⟩,
         ⟨2, "旅行の計画は不要になった", "active", 5, 1, 1, none, 0⟩]
        ⟨[], [],
         [⟨1, "来月までに旅行の計画を立てる", "active", 5, 0, 0, none, 0⟩,
          ⟨2, "旅行の計画は不要になった", "active", 5, 1, 1, none, 0⟩], []⟩).acted) ∧
    (1 : Nat) ≠ (2 : Nat) ∧
    ((2 : Nat) = 1 ∨ (2 : Nat) = 2) ∧
    ((lookup_goal (resolve_goal_conflicts 9 [⟨1, 2, 2⟩]
        [⟨1, "来月までに旅行の計画を立てる", "active", 5, 0, 0, none, 0⟩,
         ⟨2, "旅行の計画は不要になった", "active", 5, 1, 1, none, 0⟩]
        ⟨[], [],
         [⟨1, "来月までに旅行の計画を立てる", "active", 5, 0, 0, none, 0⟩,
          ⟨2, "旅行の計画は不要になった", "active", 5, 1, 1, none, 0⟩], []⟩).db
          (if (2 : Nat) == 2 then 1 else 2)
       = (lookup_goal ⟨[], [],
           [⟨1, "来月までに旅行の計画を立てる", "active", 5, 0, 0, none, 0⟩,
            ⟨2, "旅行の計画は不要になった", "active", 5, 1, 1, none, 0⟩], []⟩
           (if (2 : Nat) == 2 then 1 else 2)).map
           (fun g => { g with goal_status := "cancelled", updated_at := 9 })) ∧
     lookup_goal (resolve_goal_conflicts 9 [⟨1, 2, 2⟩]
        [⟨1, "来月までに旅行の計画を立てる", "active", 5, 0, 0, none, 0⟩,
         ⟨2, "旅行の計画は不要になった", "active", 5, 1, 1, none, 0⟩]
        ⟨[], [],
         [⟨1, "来月までに旅行の計画を立てる", "active", 5, 0, 0, none, 0⟩,
          ⟨2, "旅行の計画は不要になった", "active", 5, 1, 1, none, 0⟩], []⟩).db 2
       = lookup_goal ⟨[], [],
           [⟨1, "来月までに旅行の計画を立てる", "active", 5, 0, 0, none, 0⟩,
            ⟨2, "旅行の計画は不要になった", "active", 5, 1, 1, none, 0⟩], []⟩ 2) :=
  ⟨by decide, by decide, by decide,
   conflict_resolution_keeps_newer.1 9 [⟨1, 2, 2⟩]
     [⟨1, "来月までに旅行の計画を立てる", "active", 5, 0, 0, none, 0⟩,
      ⟨2, "旅行の計画は不要になった", "active", 5, 1, 1, none, 0⟩]
     ⟨[], [],
      [⟨1, "来月までに旅行の計画を立てる", "active", 5, 0, 0, none, 0⟩,
       ⟨2, "旅行の計画は不要になった", "active", 5, 1, 1, none, 0⟩], []⟩
     ⟨1, 2, 2⟩ (by decide) (by decide) (by decide)⟩

/-! ## C3: stage sequencing and abort-on-error -/

/-- Events a stage emits internally: only `processing` or `skipped` statuses
(`started` / `completed` / `error` events come from `organize_all` itself). -/
def benign_events (evs : List ProgressEvent) : Prop :=
  ∀ e ∈ evs, e.status = "processing" ∨ e.status = "skipped"

theorem benign_append {l1 l2 : List ProgressEvent}
    (h1 : benign_events l1) (h2 : benign_events l2) : benign_events (l1 ++ l2) :=
  fun e he => (List.mem_append.mp he).elim (h1 e) (h2 e)

theorem stage_starts_append (l1 l2 : List ProgressEvent) :
    stage_starts (l1 ++ l2) = stage_starts l1 ++ stage_starts l2 := by
  simp [stage_starts, List.filter_append]

theorem has_error_append (l1 l2 : List ProgressEvent) :
    has_error_event (l1 ++ l2) = (has_error_event l1 || has_error_event l2) := by
  simp [has_error_event, List.any_append]

theorem stage_starts_benign {l : List ProgressEvent} (h : benign_events l) :
    stage_starts l = [] := by
  unfold stage_starts
  rw [List.filter_eq_nil_iff.mpr, List.map_nil]
  intro e he
  rcases h e he with h' | h' <;> simp [h']

theorem has_error_benign {l : List ProgressEvent} (h : benign_events l) :
    has_error_event l = false := by
  unfold has_error_event
  rw [List.any_eq_false]
  intro e he
  rcases h e he with h' | h' <;> simp [h']

theorem format_attributes_loop_benign (c : Client) (now : Nat) :
    ∀ (l : List AttributeRec) (db : Db),
      benign_events (format_attributes_loop c now l db).2.2 := by
  intro l
  induction l with
  | nil => intro db e he; cases he
  | cons a as ih =>
    intro db e he
    simp only [format_attributes_loop] at he
    rcases List.mem_cons.mp he with rfl | he'
    · exact .inl rfl
    · exact ih _ e he'

theorem format_episodes_loop_benign (c : Client) (now : Nat) :
    ∀ (l : List MemoryRec) (db : Db),
      benign_events (format_episodes_loop c now l db).2.2 := by
  intro l
  induction l with
  | nil => intro db e he; cases he
  | cons m ms ih =>
    intro db e he
    simp only [format_episodes_loop] at he
    rcases List.mem_cons.mp he with rfl | he'
    · exact .inl rfl
    · exact ih _ e he'

theorem format_goals_loop_benign (c : Client) (now : Nat) :
    ∀ (l : List GoalRec) (db : Db),
      benign_events (format_goals_loop c now l db).2.2 := by
  intro l
  induction l with
  | nil => intro db e he; cases he
  | cons g gs ih =>
    intro db e he
    simp only [format_goals_loop] at he
    rcases List.mem_cons.mp he with rfl | he'
    · exact .inl rfl
    · exact ih _ e he'

theorem format_requests_loop_benign (c : Client) (now : Nat) :
    ∀ (l : List RequestRec) (db : Db),
      benign_events (format_requests_loop c now l db).2.2 := by
  intro l
  induction l with
  | nil => intro db e he; cases he
  | cons r rs ih =>
    intro db e he
    simp only [format_requests_loop] at he
    rcases List.mem_cons.mp he with rfl | he'
    · exact .inl rfl
    · exact ih _ e he'

theorem merge_episodes_loop_benign (c : Client) (now : Nat) (episodes : List MemoryRec) :
    ∀ (dups : List DuplicatePair) (processed : List Nat) (db : Db),
      benign_events (merge_episodes_loop c now episodes dups processed db).events := by
  intro dups
  induction dups with
  | nil => intro processed db e he; cases he
  | cons d rest ih =>
    intro processed db
    simp only [merge_episodes_loop]
    split
    · exact ih _ _
    · split
      · intro e he
        rcases List.mem_cons.mp he with rfl | he'
        · exact .inl rfl
        · exact ih _ _ e he'
      · exact ih _ _

theorem merge_requests_loop_benign (c : Client) (now : Nat) (requests : List RequestRec) :
    ∀ (dups : List DuplicatePair) (processed : List Nat) (db : Db),
      benign_events (merge_requests_loop c now requests dups processed db).events := by
  intro dups
  induction dups with
  | nil => intro processed db e he; cases he
  | cons d rest ih =>
    intro processed db
    simp only [merge_requests_loop]
    split
    · exact ih _ _
    · split
      · intro e he
        rcases List.mem_cons.mp he with rfl | he'
        · exact .inl rfl
        · exact ih _ _ e he'
      · exact ih _ _

theorem resolve_attribute_conflicts_loop_benign (attributes : List AttributeRec) :
    ∀ (conflicts : List ConflictPair) (processed : List Nat) (db : Db),
      benign_events (resolve_attribute_conflicts_loop attributes conflicts processed db).events := by
  intro conflicts
  induction conflicts with
  | nil => intro processed db e he; cases he
  | cons cf rest ih =>
    intro processed db
    simp only [resolve_attribute_conflicts_loop]
    split
    · exact ih _ _
    · split
      · intro e he
        rcases List.mem_cons.mp he with rfl | he'
        · exact .inl rfl
        · exact ih _ _ e he'
      · exact ih _ _

theorem resolve_goal_conflicts_loop_benign (now : Nat) (goals : List GoalRec) :
    ∀ (conflicts : List ConflictPair) (processed : List Nat) (db : Db),
      benign_events (resolve_goal_conflicts_loop now goals conflicts processed db).events := by
  intro conflicts
  induction conflicts with
  | nil => intro processed db e he; cases he
  | cons cf rest ih =>
    intro processed db
    simp only [resolve_goal_conflicts_loop]
    split
    · exact ih _ _
    · split
      · intro e he
        rcases List.mem_cons.mp he with rfl | he'
        · exact .inl rfl
        · exact ih _ _ e he'
      · exact ih _ _

theorem compress_episodes_loop_benign (c : Client) (now : Nat) :
    ∀ (eps : List MemoryRec) (db : Db),
      benign_events (compress_episodes_loop c now eps db).1 := by
  intro eps
  induction eps with
  | nil => intro db e he; cases he
  | cons ep rest ih =>
    intro db
    simp only [compress_episodes_loop]
    split
    · intro e he; cases he
    · split
      · exact ih _
      · split
        · split
          · intro e he
            rcases List.mem_singleton.mp he with rfl
            exact .inl rfl
          · intro e he
            rcases List.mem_cons.mp he with rfl | he'
            · exact .inl rfl
            · exact ih _ e he'
        · intro e he
          rcases List.mem_cons.mp he with rfl | he'
          · exact .inl rfl
          · exact ih _ e he'

theorem organize_attributes_events_benign (c : Client) (now : Nat) (db : Db) :
    benign_events (organize_attributes c now db).events := by
  simp only [organize_attributes]
  split
  · intro e he
    rcases List.mem_singleton.mp he with rfl
    exact .inr rfl
  · refine benign_append (benign_append ?_ ?_) (format_attributes_loop_benign c now _ _)
    · intro e he
      rcases List.mem_singleton.mp he with rfl
      exact .inl rfl
    · split
      · exact resolve_attribute_conflicts_loop_benign _ _ _ _
      · intro e he; cases he

theorem organize_episodes_events_benign (c : Client) (now : Nat) (db : Db) :
    benign_events (organize_episodes c now db).events := by
  simp only [organize_episodes]
  split
  · intro e he
    rcases List.mem_singleton.mp he with rfl
    exact .inr rfl
  · have hmg : benign_events (if (get_all_memories db true).length ≥ 2 then
        merge_duplicate_episodes c now (get_all_memories db true) db
      else ⟨db, 0, [], []⟩).events := by
      split
      · unfold merge_duplicate_episodes
        split
        · intro e he; cases he
        · exact merge_episodes_loop_benign c now _ _ _ _
      · intro e he; cases he
    have hb : benign_events ([(⟨"episode", "processing"⟩ : ProgressEvent)]) := by
      intro e he
      rcases List.mem_singleton.mp he with rfl
      exact .inl rfl
    split
    · exact benign_append (benign_append (benign_append hb hmg)
        (format_episodes_loop_benign c now _ _)) (compress_episodes_loop_benign c now _ _)
    · exact benign_append (benign_append (benign_append hb hmg)
        (format_episodes_loop_benign c now _ _)) (compress_episodes_loop_benign c now _ _)

theorem organize_goals_events_benign (c : Client) (now : Nat) (db : Db) :
    benign_events (organize_goals c now db).events := by
  simp only [organize_goals]
  split
  · intro e he
    rcases List.mem_singleton.mp he with rfl
    exact .inr rfl
  · refine benign_append (benign_append ?_ ?_) (format_goals_loop_benign c now _ _)
    · intro e he
      rcases List.mem_singleton.mp he with rfl
      exact .inl rfl
    · split
      · exact resolve_goal_conflicts_loop_benign _ _ _ _ _
      · intro e he; cases he

theorem organize_requests_events_benign (c : Client) (now : Nat) (db : Db) :
    benign_events (organize_requests c now db).events := by
  simp only [organize_requests]
  split
  · intro e he
    rcases List.mem_singleton.mp he with rfl
    exact .inr rfl
  · refine benign_append (benign_append ?_ ?_) (format_requests_loop_benign c now _ _)
    · intro e he
      rcases List.mem_singleton.mp he with rfl
      exact .inl rfl
    · split
      · unfold merge_duplicate_requests
        split
        · intro e he; cases he
        · exact merge_requests_loop_benign c now _ _ _ _
      · intro e he; cases he

theorem organize_attributes_ok (c : Client) (now : Nat) (db : Db) :
    ∃ r, (organize_attributes c now db).result = .ok r := by
  simp only [organize_attributes]
  split
  · exact ⟨_, rfl⟩
  · exact ⟨_, rfl⟩

theorem organize_goals_ok (c : Client) (now : Nat) (db : Db) :
    ∃ r, (organize_goals c now db).result = .ok r := by
  simp only [organize_goals]
  split
  · exact ⟨_, rfl⟩
  · exact ⟨_, rfl⟩

theorem organize_requests_ok (c : Client) (now : Nat) (db : Db) :
    ∃ r, (organize_requests c now db).result = .ok r := by
  simp only [organize_requests]
  split
  · exact ⟨_, rfl⟩
  · exact ⟨_, rfl⟩

/-- The episode-formatting loop depends on the client only through
`generateText`. -/
theorem format_episodes_loop_congr (c c' : Client)
    (h : c.generateText = c'.generateText) (now : Nat) (l : List MemoryRec) :
    ∀ db, format_episodes_loop c now l db = format_episodes_loop c' now l db := by
  induction l with
  | nil => intro db; rfl
  | cons m ms ih =>
    intro db
    simp only [format_episodes_loop]
    have hfe : format_episode c now m db = format_episode c' now m db := by
      unfold format_episode
      rw [h]
    rw [hfe, ih]

/-- The compression loop depends on the client only through `generateText`. -/
theorem compress_episodes_loop_congr (c c' : Client)
    (h : c.generateText = c'.generateText) (now : Nat) (l : List MemoryRec) :
    ∀ db, compress_episodes_loop c now l db = compress_episodes_loop c' now l db := by
  induction l with
  | nil => intro db; rfl
  | cons ep rest ih =>
    intro db
    simp only [compress_episodes_loop, h, ih]

/-- C3: `organize_all` runs the four stages sequentially in the fixed order
attributes → episodes → goals → requests (the `started` events of a run's log
form a prefix of that order); an exception escaping a stage is recorded as an
`error` event and aborts all remaining stages (no `goal` or `request` stage
starts); and a parse failure inside a stage's duplicate/conflict detection
yields zero pairs without preventing that stage's later phases (the episode
stage with a detection parse failure behaves exactly like one whose backend
reports no duplicate pairs, and likewise the attribute stage for conflict
detection). -/
theorem organize_all_sequencing :
    (∀ c now db,
       (∃ k, stage_starts (organize_all c now db).2.2 = stageOrder.take k) ∧
       ((organize_all c now db).2.1.error.isSome ↔
         has_error_event (organize_all c now db).2.2 = true) ∧
       ((organize_all c now db).2.1.error.isSome →
         ¬ "goal" ∈ stage_starts (organize_all c now db).2.2 ∧
         ¬ "request" ∈ stage_starts (organize_all c now db).2.2)) ∧
    (∀ gT gC now db,
       organize_episodes ⟨gT, fun _ => none, gC⟩ now db
         = organize_episodes ⟨gT, fun _ => some [], gC⟩ now db) ∧
    (∀ gT gD now db,
       organize_attributes ⟨gT, gD, fun _ => none⟩ now db
         = organize_attributes ⟨gT, gD, fun _ => some []⟩ now db) := by
  refine ⟨?_, ?_, ?_⟩
  · intro c now db
    obtain ⟨ra, hra⟩ := organize_attributes_ok c now db
    have hbA := organize_attributes_events_benign c now db
    have hbE := organize_episodes_events_benign c now (organize_attributes c now db).db
    simp only [organize_all]
    rw [hra]
    cases hse : (organize_episodes c now (organize_attributes c now db).db).result with
    | error e =>
      refine ⟨⟨2, ?_⟩, ⟨?_, ?_⟩, ?_⟩
      · simp only [stage_starts_append, stage_starts_benign hbA, stage_starts_benign hbE]
        decide
      · intro _
        simp only [has_error_append, has_error_benign hbA, has_error_benign hbE]
        decide
      · intro _
        rfl
      · intro _
        constructor <;>
          · intro hmem
            simp only [stage_starts_append, stage_starts_benign hbA,
              stage_starts_benign hbE] at hmem
            revert hmem
            decide
    | ok re =>
      obtain ⟨rg, hrg⟩ := organize_goals_ok c now
        (organize_episodes c now (organize_attributes c now db).db).db
      have hbG := organize_goals_events_benign c now
        (organize_episodes c now (organize_attributes c now db).db).db
      rw [hrg]
      obtain ⟨rr, hrr⟩ := organize_requests_ok c now
        (organize_goals c now
          (organize_episodes c now (organize_attributes c now db).db).db).db
      have hbR := organize_requests_events_benign c now
        (organize_goals c now
          (organize_episodes c now (organize_attributes c now db).db).db).db
      rw [hrr]
      refine ⟨⟨4, ?_⟩, ⟨?_, ?_⟩, ?_⟩
      · simp only [stage_starts_append, stage_starts_benign hbA, stage_starts_benign hbE,
          stage_starts_benign hbG, stage_starts_benign hbR]
        decide
      · intro h
        exact absurd h (by simp [initialResults])
      · intro h
        simp only [has_error_append, has_error_benign hbA, has_error_benign hbE,
          has_error_benign hbG, has_error_benign hbR] at h
        exact absurd h (by decide)
      · intro h
        exact absurd h (by simp [initialResults])
  · intro gT gC now db
    have hmg : ∀ eps dbx, merge_duplicate_episodes ⟨gT, fun _ => none, gC⟩ now eps dbx
        = merge_duplicate_episodes ⟨gT, fun _ => some [], gC⟩ now eps dbx :=
      fun eps dbx => rfl
    simp only [organize_episodes, compress_old_episodes]
    rw [hmg]
    rw [format_episodes_loop_congr ⟨gT, fun _ => none, gC⟩ ⟨gT, fun _ => some [], gC⟩ rfl]
    rw [compress_episodes_loop_congr ⟨gT, fun _ => none, gC⟩ ⟨gT, fun _ => some [], gC⟩ rfl]
  · intro gT gD now db
    simp only [organize_attributes, detect_conflicts_attributes, Option.getD_none,
      Option.getD_some]
    rw [format_attributes_loop_congr ⟨gT, gD, fun _ => none⟩ ⟨gT, gD, fun _ => some []⟩ rfl]

/-- C3 witness: a store whose single episode carries an unparsable
`created_at` makes the episode stage raise; the run records an error and the
goal and request stages never start. -/
theorem organize_all_sequencing_witness :
    (organize_all ⟨fun _ => "", fun _ => none, fun _ => none⟩ 0
        ⟨[], [⟨1, "散歩した", "general", none, 0, 0, 0, true⟩], [], []⟩).2.1.error.isSome ∧
    (¬ "goal" ∈ stage_starts (organize_all ⟨fun _ => "", fun _ => none, fun _ => none⟩ 0
        ⟨[], [⟨1, "散歩した", "general", none, 0, 0, 0, true⟩], [], []⟩).2.2 ∧
     ¬ "request" ∈ stage_starts (organize_all ⟨fun _ => "", fun _ => none, fun _ => none⟩ 0
        ⟨[], [⟨1, "散歩した", "general", none, 0, 0, 0, true⟩], [], []⟩).2.2) :=
  ⟨by decide,
   (organize_all_sequencing.1 ⟨fun _ => "", fun _ => none, fun _ => none⟩ 0
     ⟨[], [⟨1, "散歩した", "general", none, 0, 0, 0, true⟩], [], []⟩).2.2 (by decide)⟩

/-! ## C1: monotone compression -/

/-- Keys of a keyed-update map are unchanged. -/
theorem map_key_map {α : Type} (key : α → Nat) (F : α → α)
    (hF : ∀ a, key (F a) = key a) (l : List α) :
    (l.map F).map key = l.map key := by
  rw [List.map_map]
  exact List.map_congr_left (fun a _ => hF a)

/-- `lookup_memory` is unaffected by an `update_memory` of a different id. -/
theorem lookup_memory_update_ne (db : Db) (now i : Nat) (ct : String) (j : Nat)
    (hij : j ≠ i) :
    lookup_memory (update_memory db now i ct).1 j = lookup_memory db j := by
  unfold lookup_memory update_memory
  exact find?_update_key_ne (fun m : MemoryRec => m.id) db.user_memories _
    (fun x => by by_cases h : x.id == i <;> simp [h]) i j hij

/-- `lookup_memory` after an `update_memory` of the same id. -/
theorem lookup_memory_update_self (db : Db) (now i : Nat) (ct : String) :
    lookup_memory (update_memory db now i ct).1 i
      = (lookup_memory db i).map
          (fun m => { m with memory_content := ct, updated_at := now }) := by
  unfold lookup_memory update_memory
  exact find?_update_key (fun m : MemoryRec => m.id) db.user_memories
    (fun m => { m with memory_content := ct, updated_at := now }) (fun x => rfl) i

/-- `update_compression_level` on the `user_memories` table, evaluated. -/
theorem update_compression_level_memories (db : Db) (now i lvl : Nat) :
    update_compression_level db now "user_memories" i lvl
      = .ok ({ db with user_memories := db.user_memories.map (fun m =>
            if m.id == i then { m with compression_level := lvl, updated_at := now }
            else m) },
         db.user_memories.any (fun m => m.id == i)) := rfl

/-- `lookup_memory` is unaffected by a compression-level write to a different
id. -/
theorem lookup_memory_setlevel_ne (db : Db) (now i lvl j : Nat) (hij : j ≠ i) :
    lookup_memory { db with user_memories := db.user_memories.map (fun m =>
        if m.id == i then { m with compression_level := lvl, updated_at := now }
        else m) } j
      = lookup_memory db j := by
  unfold lookup_memory
  exact find?_update_key_ne (fun m : MemoryRec => m.id) db.user_memories _
    (fun x => by by_cases h : x.id == i <;> simp [h]) i j hij

/-- `lookup_memory` after a compression-level write to the same id. -/
theorem lookup_memory_setlevel_self (db : Db) (now i lvl : Nat) :
    lookup_memory { db with user_memories := db.user_memories.map (fun m =>
        if m.id == i then { m with compression_level := lvl, updated_at := now }
        else m) } i
      = (lookup_memory db i).map
          (fun m => { m with compression_level := lvl, updated_at := now }) := by
  unfold lookup_memory
  exact find?_update_key (fun m : MemoryRec => m.id) db.user_memories
    (fun m => { m with compression_level := lvl, updated_at := now }) (fun x => rfl) i

/-- `memory_level` is unchanged by a map with id- and level-preserving `F`. -/
theorem memory_level_map (db : Db) (F : MemoryRec → MemoryRec)
    (hid : ∀ m, (F m).id = m.id) (hlv : ∀ m, (F m).compression_level = m.compression_level)
    (j : Nat) :
    memory_level { db with user_memories := db.user_memories.map F } j
      = memory_level db j := by
  unfold memory_level lookup_memory
  rw [find?_map_pres F _ (fun a => by rw [hid])]
  cases db.user_memories.find? (fun m => m.id == j) <;> simp [hlv]

/-- `update_memory` changes no compression level. -/
theorem memory_level_update (db : Db) (now i : Nat) (ct : String) (j : Nat) :
    memory_level (update_memory db now i ct).1 j = memory_level db j :=
  memory_level_map db
    (fun m => if m.id == i then { m with memory_content := ct, updated_at := now } else m)
    (fun m => by by_cases h : m.id == i <;> simp [h])
    (fun m => by by_cases h : m.id == i <;> simp [h]) j

/-- A soft `delete_memory` changes no compression level. -/
theorem memory_level_delete_soft (db : Db) (now i j : Nat) :
    memory_level (delete_memory db now i false).1 j = memory_level db j :=
  memory_level_map db
    (fun m => if m.id == i then { m with is_active := false, updated_at := now } else m)
    (fun m => by by_cases h : m.id == i <;> simp [h])
    (fun m => by by_cases h : m.id == i <;> simp [h]) j

/-- `update_memory` changes no memory id. -/
theorem memory_ids_update (db : Db) (now i : Nat) (ct : String) :
    (update_memory db now i ct).1.user_memories.map (fun m => m.id)
      = db.user_memories.map (fun m => m.id) :=
  map_key_map (fun m : MemoryRec => m.id)
    (fun m => if m.id == i then { m with memory_content := ct, updated_at := now } else m)
    (fun m => by by_cases h : m.id == i <;> simp [h]) db.user_memories

/-- A soft `delete_memory` changes no memory id. -/
theorem memory_ids_delete_soft (db : Db) (now i : Nat) :
    (delete_memory db now i false).1.user_memories.map (fun m => m.id)
      = db.user_memories.map (fun m => m.id) :=
  map_key_map (fun m : MemoryRec => m.id)
    (fun m => if m.id == i then { m with is_active := false, updated_at := now } else m)
    (fun m => by by_cases h : m.id == i <;> simp [h]) db.user_memories

/-- The episode-merge loop changes no compression level. -/
theorem merge_episodes_loop_level (c : Client) (now : Nat) (episodes : List MemoryRec) :
    ∀ (dups : List DuplicatePair) (processed : List Nat) (db : Db) (j : Nat),
      memory_level (merge_episodes_loop c now episodes dups processed db).db j
        = memory_level db j := by
  intro dups
  induction dups with
  | nil => intro processed db j; rfl
  | cons d rest ih =>
    intro processed db j
    simp only [merge_episodes_loop]
    split
    · exact ih _ _ _
    · split
      · rw [ih _ _ _, memory_level_delete_soft, memory_level_update]
      · exact ih _ _ _

/-- The episode-merge loop changes no memory id. -/
theorem merge_episodes_loop_ids (c : Client) (now : Nat) (episodes : List MemoryRec) :
    ∀ (dups : List DuplicatePair) (processed : List Nat) (db : Db),
      (merge_episodes_loop c now episodes dups processed db).db.user_memories.map (fun m => m.id)
        = db.user_memories.map (fun m => m.id) := by
  intro dups
  induction dups with
  | nil => intro processed db; rfl
  | cons d rest ih =>
    intro processed db
    simp only [merge_episodes_loop]
    split
    · exact ih _ _
    · split
      · rw [ih _ _, memory_ids_delete_soft, memory_ids_update]
      · exact ih _ _

/-- The episode-format loop changes no compression level. -/
theorem format_episodes_loop_level (c : Client) (now : Nat) :
    ∀ (l : List MemoryRec) (db : Db) (j : Nat),
      memory_level (format_episodes_loop c now l db).1 j = memory_level db j := by
  intro l
  induction l with
  | nil => intro db j; rfl
  | cons m ms ih =>
    intro db j
    simp only [format_episodes_loop]
    rw [ih]
    simp only [format_episode]
    split
    · exact memory_level_update _ _ _ _ _
    · rfl

/-- The episode-format loop changes no memory id. -/
theorem format_episodes_loop_ids (c : Client) (now : Nat) :
    ∀ (l : List MemoryRec) (db : Db),
      (format_episodes_loop c now l db).1.user_memories.map (fun m => m.id)
        = db.user_memories.map (fun m => m.id) := by
  intro l
  induction l with
  | nil => intro db; rfl
  | cons m ms ih =>
    intro db
    simp only [format_episodes_loop]
    rw [ih]
    simp only [format_episode]
    split
    · exact memory_ids_update _ _ _ _
    · rfl

/-- `_merge_duplicate_episodes` changes no compression level. -/
theorem merge_duplicate_episodes_level (c : Client) (now : Nat)
    (episodes : List MemoryRec) (db : Db) (j : Nat) :
    memory_level (merge_duplicate_episodes c now episodes db).db j = memory_level db j := by
  unfold merge_duplicate_episodes
  split
  · rfl
  · exact merge_episodes_loop_level c now episodes _ _ _ _

/-- `_merge_duplicate_episodes` changes no memory id. -/
theorem merge_duplicate_episodes_ids (c : Client) (now : Nat)
    (episodes : List MemoryRec) (db : Db) :
    (merge_duplicate_episodes c now episodes db).db.user_memories.map (fun m => m.id)
      = db.user_memories.map (fun m => m.id) := by
  unfold merge_duplicate_episodes
  split
  · rfl
  · exact merge_episodes_loop_ids c now episodes _ _ _

/-- The target level picked by `_compress_old_episodes` strictly exceeds the
current level. -/
theorem compress_target_gt {d l t : Nat} (h : compress_target d l = some t) : l < t := by
  unfold compress_target at h
  split at h
  next hc =>
    injection h with h'
    have h2 := of_decide_eq_true (Bool.and_eq_true_iff.mp hc).2
    omega
  next =>
    split at h
    next hc =>
      injection h with h'
      have h2 := of_decide_eq_true (Bool.and_eq_true_iff.mp hc).2
      omega
    next =>
      split at h
      next hc =>
        injection h with h'
        have h2 := of_decide_eq_true (Bool.and_eq_true_iff.mp hc).2
        omega
      next => cases h

/-- Ids absent from the fetched list keep their memory record through the
compression loop. -/
theorem compress_loop_frame (c : Client) (now : Nat) :
    ∀ (eps : List MemoryRec) (db : Db) (j : Nat),
      j ∉ eps.map (fun m => m.id) →
      lookup_memory (compress_episodes_loop c now eps db).2.1 j = lookup_memory db j := by
  intro eps
  induction eps with
  | nil => intro db j _; rfl
  | cons ep rest ih =>
    intro db j hj
    have hj1 : j ≠ ep.id := fun he => hj (by simp [he])
    have hj2 : j ∉ rest.map (fun m => m.id) := fun he => hj (by simp [he])
    cases hca : ep.created_at with
    | none =>
      simp only [compress_episodes_loop, hca]
    | some created =>
      simp only [compress_episodes_loop, hca]
      split
      next htgt => exact ih db j hj2
      next target htgt =>
        split
        next hguard =>
          rw [update_compression_level_memories]
          exact (ih _ j hj2).trans
            ((lookup_memory_setlevel_ne _ now ep.id target j hj1).trans
              (lookup_memory_update_ne db now ep.id _ j hj1))
        next hguard =>
          exact ih db j hj2

/-- One pass of the compression loop either leaves a record unchanged or
strictly raises its level while strictly shortening its content. -/
theorem compress_loop_effect (c : Client) (now : Nat) :
    ∀ (eps : List MemoryRec) (db : Db),
      (eps.map (fun m => m.id)).Nodup →
      (∀ e ∈ eps, lookup_memory db e.id = some e) →
      ∀ j, lookup_memory (compress_episodes_loop c now eps db).2.1 j = lookup_memory db j ∨
        ∃ m m', lookup_memory db j = some m ∧
          lookup_memory (compress_episodes_loop c now eps db).2.1 j = some m' ∧
          m.compression_level < m'.compression_level ∧
          m'.memory_content.length < m.memory_content.length := by
  intro eps
  induction eps with
  | nil => intro db _ _ j; exact .inl rfl
  | cons ep rest ih =>
    intro db hnd hinv j
    have hndr : (rest.map (fun m => m.id)).Nodup := by
      rw [List.map_cons, List.nodup_cons] at hnd
      exact hnd.2
    have hepid : ep.id ∉ rest.map (fun m => m.id) := by
      rw [List.map_cons, List.nodup_cons] at hnd
      exact hnd.1
    have hinvr : ∀ e ∈ rest, lookup_memory db e.id = some e :=
      fun e he => hinv e (List.mem_cons_of_mem _ he)
    cases hca : ep.created_at with
    | none =>
      simp only [compress_episodes_loop, hca]
      exact .inl trivial
    | some created =>
      simp only [compress_episodes_loop, hca]
      split
      next htgt => exact ih db hndr hinvr j
      next target htgt =>
        split
        next hguard =>
          rw [update_compression_level_memories]
          by_cases hji : j = ep.id
          · subst hji
            right
            have hlook : lookup_memory db ep.id = some ep := hinv ep (List.mem_cons_self _ _)
            have hdb1 : lookup_memory (update_memory db now ep.id
                (pyStrip (c.generateText (compress_prompt target ep.memory_content)))).1 ep.id
                = some { ep with
                    memory_content :=
                      pyStrip (c.generateText (compress_prompt target ep.memory_content)),
                    updated_at := now } := by
              rw [lookup_memory_update_self, hlook]
              rfl
            have hdb2 : lookup_memory
                { (update_memory db now ep.id
                    (pyStrip (c.generateText (compress_prompt target ep.memory_content)))).1 with
                  user_memories := (update_memory db now ep.id
                    (pyStrip (c.generateText (compress_prompt target ep.memory_content)))).1.user_memories.map
                    (fun m => if m.id == ep.id then
                      { m with compression_level := target, updated_at := now } else m) } ep.id
                = some { ep with
                    memory_content :=
                      pyStrip (c.generateText (compress_prompt target ep.memory_content)),
                    updated_at := now, compression_level := target } := by
              rw [lookup_memory_setlevel_self, hdb1]
              rfl
            refine ⟨ep, _, hlook,
              (compress_loop_frame c now rest _ ep.id hepid).trans hdb2, ?_, ?_⟩
            · exact compress_target_gt htgt
            · exact of_decide_eq_true (Bool.and_eq_true_iff.mp hguard).2
          · have hdb2j : lookup_memory
                { (update_memory db now ep.id
                    (pyStrip (c.generateText (compress_prompt target ep.memory_content)))).1 with
                  user_memories := (update_memory db now ep.id
                    (pyStrip (c.generateText (compress_prompt target ep.memory_content)))).1.user_memories.map
                    (fun m => if m.id == ep.id then
                      { m with compression_level := target, updated_at := now } else m) } j
                = lookup_memory db j :=
              (lookup_memory_setlevel_ne _ now ep.id target j hji).trans
                (lookup_memory_update_ne db now ep.id _ j hji)
            have hinv2 : ∀ e ∈ rest, lookup_memory
                { (update_memory db now ep.id
                    (pyStrip (c.generateText (compress_prompt target ep.memory_content)))).1 with
                  user_memories := (update_memory db now ep.id
                    (pyStrip (c.generateText (compress_prompt target ep.memory_content)))).1.user_memories.map
                    (fun m => if m.id == ep.id then
                      { m with compression_level := target, updated_at := now } else m) } e.id
                = some e := by
              intro e he
              have hne : e.id ≠ ep.id :=
                fun heq2 => hepid (heq2 ▸ List.mem_map_of_mem _ he)
              exact ((lookup_memory_setlevel_ne _ now ep.id target e.id hne).trans
                (lookup_memory_update_ne db now ep.id _ e.id hne)).trans (hinvr e he)
            rcases ih _ hndr hinv2 j with heq | ⟨m, m', hm, hm', h1, h2⟩
            · exact .inl (heq.trans hdb2j)
            · exact .inr ⟨m, m', hdb2j ▸ hm, hm', h1, h2⟩
        next hguard =>
          exact ih db hndr hinvr j

/-- Ids of the active-episode fetch are pairwise distinct when the table's
ids are. -/
theorem get_all_memories_ids_nodup (db : Db)
    (hnd : (db.user_memories.map (fun m => m.id)).Nodup) :
    ((get_all_memories db true).map (fun m => m.id)).Nodup := by
  have hndf : ((db.user_memories.filter (fun m => m.is_active)).map
      (fun m => m.id)).Nodup :=
    List.Nodup.sublist ((List.filter_sublist _).map (fun m : MemoryRec => m.id)) hnd
  have hperm : ((get_all_memories db true).map (fun m => m.id)).Perm
      ((db.user_memories.filter (fun m => m.is_active)).map (fun m => m.id)) :=
    (sortBy_perm _ _).map (fun m : MemoryRec => m.id)
  exact hperm.nodup_iff.mpr hndf

/-- Every fetched active episode is the table's record with its id. -/
theorem get_all_memories_lookup (db : Db)
    (hnd : (db.user_memories.map (fun m => m.id)).Nodup) :
    ∀ e ∈ get_all_memories db true, lookup_memory db e.id = some e := by
  intro e he
  have he2 : e ∈ db.user_memories :=
    List.mem_of_mem_filter (mem_sortBy.mp he)
  exact find?_key_nodup (fun m : MemoryRec => m.id) db.user_memories e hnd he2

/-- `_compress_old_episodes` never lowers a stored compression level. -/
theorem compress_stage_monotone (c : Client) (now : Nat) (db : Db)
    (hnd : (db.user_memories.map (fun m => m.id)).Nodup) (j l : Nat)
    (h : memory_level db j = some l) :
    ∃ l', memory_level (compress_old_episodes c now db).2.1 j = some l' ∧ l ≤ l' := by
  rcases compress_loop_effect c now (get_all_memories db true) db
      (get_all_memories_ids_nodup db hnd) (get_all_memories_lookup db hnd) j with
    heq | ⟨m, m', hm, hm', hlt, _⟩
  · refine ⟨l, ?_, le_rfl⟩
    unfold compress_old_episodes memory_level
    rw [heq]
    exact h
  · have hl : l = m.compression_level := by
      have hml : memory_level db j = some m.compression_level := by
        unfold memory_level
        rw [hm]
        rfl
      exact Option.some.inj (h.symm.trans hml)
    refine ⟨m'.compression_level, ?_, ?_⟩
    · unfold compress_old_episodes memory_level
      rw [hm']
      rfl
    · rw [hl]
      exact le_of_lt hlt

/-- The merge step of the episode stage changes no compression level. -/
theorem episodes_merge_db_level (c : Client) (now : Nat) (db : Db) (j : Nat) :
    memory_level (episodes_merge_db c now db) j = memory_level db j := by
  unfold episodes_merge_db
  split
  · exact merge_duplicate_episodes_level _ _ _ _ _
  · rfl

/-- The merge step of the episode stage changes no memory id. -/
theorem episodes_merge_db_ids (c : Client) (now : Nat) (db : Db) :
    (episodes_merge_db c now db).user_memories.map (fun m => m.id)
      = db.user_memories.map (fun m => m.id) := by
  unfold episodes_merge_db
  split
  · exact merge_duplicate_episodes_ids _ _ _ _
  · rfl

/-- The merge and format steps of the episode stage change no compression
level. -/
theorem episodes_format_db_level (c : Client) (now : Nat) (db : Db) (j : Nat) :
    memory_level (episodes_format_db c now db) j = memory_level db j := by
  unfold episodes_format_db
  rw [format_episodes_loop_level]
  exact episodes_merge_db_level c now db j

/-- The merge and format steps of the episode stage change no memory id. -/
theorem episodes_format_db_ids (c : Client) (now : Nat) (db : Db) :
    (episodes_format_db c now db).user_memories.map (fun m => m.id)
      = db.user_memories.map (fun m => m.id) := by
  unfold episodes_format_db
  rw [format_episodes_loop_ids]
  exact episodes_merge_db_ids c now db

/-- The database state `_organize_episodes` hands on, as merge, format and
compression composed. -/
theorem organize_episodes_db (c : Client) (now : Nat) (db : Db) :
    (organize_episodes c now db).db =
      if (get_all_memories db true).isEmpty then db
      else (compress_old_episodes c now (episodes_format_db c now db)).2.1 := by
  simp only [organize_episodes]
  split
  next => rfl
  next =>
    split
    next => rfl
    next => rfl

/-- The episode stage never lowers a stored compression level. -/
theorem organize_episodes_monotone (c : Client) (now : Nat) (db : Db)
    (hnd : (db.user_memories.map (fun m => m.id)).Nodup) (j l : Nat)
    (h : memory_level db j = some l) :
    ∃ l', memory_level (organize_episodes c now db).db j = some l' ∧ l ≤ l' := by
  rw [organize_episodes_db]
  split
  · exact ⟨l, h, le_rfl⟩
  · exact compress_stage_monotone c now (episodes_format_db c now db)
      (by rw [episodes_format_db_ids]; exact hnd) j l
      ((episodes_format_db_level c now db j).trans h)

/-- The attribute-conflict loop leaves `user_memories` untouched. -/
theorem resolve_attribute_conflicts_loop_memories (attributes : List AttributeRec) :
    ∀ (conflicts : List ConflictPair) (processed : List Nat) (db : Db),
      (resolve_attribute_conflicts_loop attributes conflicts processed db).db.user_memories
        = db.user_memories := by
  intro conflicts
  induction conflicts with
  | nil => intro processed db; rfl
  | cons cf rest ih =>
    intro processed db
    simp only [resolve_attribute_conflicts_loop]
    split
    · exact ih _ _
    · split
      · exact ih _ _
      · exact ih _ _

/-- The goal-conflict loop leaves `user_memories` untouched. -/
theorem resolve_goal_conflicts_loop_memories (now : Nat) (goals : List GoalRec) :
    ∀ (conflicts : List ConflictPair) (processed : List Nat) (db : Db),
      (resolve_goal_conflicts_loop now goals conflicts processed db).db.user_memories
        = db.user_memories := by
  intro conflicts
  induction conflicts with
  | nil => intro processed db; rfl
  | cons cf rest ih =>
    intro processed db
    simp only [resolve_goal_conflicts_loop]
    split
    · exact ih _ _
    · split
      · exact ih _ _
      · exact ih _ _

/-- The request-merge loop leaves `user_memories` untouched. -/
theorem merge_requests_loop_memories (c : Client) (now : Nat)
    (requests : List RequestRec) :
    ∀ (dups : List DuplicatePair) (processed : List Nat) (db : Db),
      (merge_requests_loop c now requests dups processed db).db.user_memories
        = db.user_memories := by
  intro dups
  induction dups with
  | nil => intro processed db; rfl
  | cons d rest ih =>
    intro processed db
    simp only [merge_requests_loop]
    split
    · exact ih _ _
    · split
      · exact ih _ _
      · exact ih _ _

/-- `_merge_duplicate_requests` leaves `user_memories` untouched. -/
theorem merge_duplicate_requests_memories (c : Client) (now : Nat)
    (requests : List RequestRec) (db : Db) :
    (merge_duplicate_requests c now requests db).db.user_memories
      = db.user_memories := by
  unfold merge_duplicate_requests
  split
  · rfl
  · exact merge_requests_loop_memories c now requests _ _ _

/-- The attribute-format loop leaves `user_memories` untouched. -/
theorem format_attributes_loop_memories (c : Client) (now : Nat) :
    ∀ (l : List AttributeRec) (db : Db),
      (format_attributes_loop c now l db).1.user_memories = db.user_memories := by
  intro l
  induction l with
  | nil => intro db; rfl
  | cons a rest ih =>
    intro db
    simp only [format_attributes_loop]
    rw [ih]
    simp only [format_attribute]
    split
    · rfl
    · rfl

/-- The goal-format loop leaves `user_memories` untouched. -/
theorem format_goals_loop_memories (c : Client) (now : Nat) :
    ∀ (l : List GoalRec) (db : Db),
      (format_goals_loop c now l db).1.user_memories = db.user_memories := by
  intro l
  induction l with
  | nil => intro db; rfl
  | cons g rest ih =>
    intro db
    simp only [format_goals_loop]
    rw [ih]
    simp only [format_goal]
    split
    · rfl
    · rfl

/-- The request-format loop leaves `user_memories` untouched. -/
theorem format_requests_loop_memories (c : Client) (now : Nat) :
    ∀ (l : List RequestRec) (db : Db),
      (format_requests_loop c now l db).1.user_memories = db.user_memories := by
  intro l
  induction l with
  | nil => intro db; rfl
  | cons rq rest ih =>
    intro db
    simp only [format_requests_loop]
    rw [ih]
    simp only [format_request]
    split
    · rfl
    · rfl

/-- The attribute stage leaves `user_memories` untouched. -/
theorem organize_attributes_memories (c : Client) (now : Nat) (db : Db) :
    (organize_attributes c now db).db.user_memories = db.user_memories := by
  simp only [organize_attributes]
  split
  · rfl
  · rw [format_attributes_loop_memories]
    split
    · exact resolve_attribute_conflicts_loop_memories _ _ _ _
    · rfl

/-- The goal stage leaves `user_memories` untouched. -/
theorem organize_goals_memories (c : Client) (now : Nat) (db : Db) :
    (organize_goals c now db).db.user_memories = db.user_memories := by
  simp only [organize_goals]
  split
  · rfl
  · rw [format_goals_loop_memories]
    split
    · exact resolve_goal_conflicts_loop_memories _ _ _ _ _
    · rfl

/-- The request stage leaves `user_memories` untouched. -/
theorem organize_requests_memories (c : Client) (now : Nat) (db : Db) :
    (organize_requests c now db).db.user_memories = db.user_memories := by
  simp only [organize_requests]
  split
  · rfl
  · rw [format_requests_loop_memories]
    split
    · exact merge_duplicate_requests_memories _ _ _ _
    · rfl

/-- `memory_level` depends only on `user_memories`. -/
theorem memory_level_congr (db db' : Db)
    (h : db'.user_memories = db.user_memories) (j : Nat) :
    memory_level db' j = memory_level db j := by
  unfold memory_level lookup_memory
  rw [h]

/-- An organization run never lowers a stored compression level. -/
theorem organize_all_level_mono (c : Client) (now : Nat) (db : Db)
    (hnd : (db.user_memories.map (fun m => m.id)).Nodup) (j l : Nat)
    (h : memory_level db j = some l) :
    ∃ l', memory_level (organize_all c now db).1 j = some l' ∧ l ≤ l' := by
  have hA := organize_attributes_memories c now db
  have hlA : memory_level (organize_attributes c now db).db j = memory_level db j :=
    memory_level_congr _ _ hA j
  have hndA : ((organize_attributes c now db).db.user_memories.map
      (fun m => m.id)).Nodup := by
    rw [hA]
    exact hnd
  simp only [organize_all]
  split
  · exact ⟨l, hlA.trans h, le_rfl⟩
  · rcases organize_episodes_monotone c now (organize_attributes c now db).db hndA j l
      (hlA.trans h) with ⟨l1, hl1, hle1⟩
    have hlG : memory_level
        (organize_goals c now
          (organize_episodes c now (organize_attributes c now db).db).db).db j
        = memory_level (organize_episodes c now (organize_attributes c now db).db).db j :=
      memory_level_congr _ _ (organize_goals_memories c now _) j
    have hlR : memory_level
        (organize_requests c now
          (organize_goals c now
            (organize_episodes c now (organize_attributes c now db).db).db).db).db j
        = memory_level
            (organize_goals c now
              (organize_episodes c now (organize_attributes c now db).db).db).db j :=
      memory_level_congr _ _ (organize_requests_memories c now _) j
    split
    · exact ⟨l1, hl1, hle1⟩
    · split
      · exact ⟨l1, hlG.trans hl1, hle1⟩
      · split
        · exact ⟨l1, hlR.trans (hlG.trans hl1), hle1⟩
        · exact ⟨l1, hlR.trans (hlG.trans hl1), hle1⟩

/-- Counterexample to the claim's "an update that would decrease the level is
disallowed": `update_compression_level` validates only the table name, never
the level, so writing level 1 over a record currently stored at level 3
succeeds (`ok` with the row found) and the stored level drops to 1. -/
theorem update_compression_level_allows_decrease :
    memory_level ⟨[], [⟨1, "古い話の要約", "general", some 0, 0, 0, 3, true⟩], [], []⟩ 1
      = some 3
    ∧ ∃ db' : Db,
        update_compression_level
            ⟨[], [⟨1, "古い話の要約", "general", some 0, 0, 0, 3, true⟩], [], []⟩
            5 "user_memories" 1 1
          = .ok (db', true)
        ∧ memory_level db' 1 = some 1 :=
  ⟨rfl, ⟨[], [⟨1, "古い話の要約", "general", some 0, 5, 0, 1, true⟩], [], []⟩, rfl, rfl⟩

/-- **C1** (amended): for every episodic memory record, an organization run
never lowers the stored `compression_level` (so levels are non-decreasing
across any sequence of runs), and within the compression step a record is
either left exactly as it was or has its level strictly raised while its
stored content is replaced by a strictly shorter text.  The claim's further
part — that a level-decreasing update is *disallowed* — is refuted by
`update_compression_level_allows_decrease`: the database primitive performs
no monotonicity check. -/
theorem compression_monotone (c : Client) (now : Nat) (db : Db)
    (hnd : (db.user_memories.map (fun m => m.id)).Nodup) (j : Nat) :
    (∀ l, memory_level db j = some l →
        ∃ l', memory_level (organize_all c now db).1 j = some l' ∧ l ≤ l')
    ∧ (lookup_memory (compress_old_episodes c now db).2.1 j = lookup_memory db j ∨
        ∃ m m', lookup_memory db j = some m ∧
          lookup_memory (compress_old_episodes c now db).2.1 j = some m' ∧
          m.compression_level < m'.compression_level ∧
          m'.memory_content.length < m.memory_content.length) :=
  ⟨fun l h => organize_all_level_mono c now db hnd j l h,
   compress_loop_effect c now (get_all_memories db true) db
     (get_all_memories_ids_nodup db hnd) (get_all_memories_lookup db hnd) j⟩

/-- Closed instance of `compression_monotone` on a one-episode store with an
inert backend. -/
theorem compression_monotone_witness :
    (∀ l, memory_level ⟨[], [⟨1, "散歩した", "general", some 0, 0, 0, 0, true⟩], [], []⟩ 1
          = some l →
        ∃ l', memory_level (organize_all ⟨fun _ => "", fun _ => none, fun _ => none⟩ 40
            ⟨[], [⟨1, "散歩した", "general", some 0, 0, 0, 0, true⟩], [], []⟩).1 1
          = some l' ∧ l ≤ l')
    ∧ (lookup_memory (compress_old_episodes ⟨fun _ => "", fun _ => none, fun _ => none⟩ 40
          ⟨[], [⟨1, "散歩した", "general", some 0, 0, 0, 0, true⟩], [], []⟩).2.1 1
        = lookup_memory ⟨[], [⟨1, "散歩した", "general", some 0, 0, 0, 0, true⟩], [], []⟩ 1 ∨
      ∃ m m', lookup_memory
            ⟨[], [⟨1, "散歩した", "general", some 0, 0, 0, 0, true⟩], [], []⟩ 1 = some m ∧
          lookup_memory (compress_old_episodes ⟨fun _ => "", fun _ => none, fun _ => none⟩ 40
              ⟨[], [⟨1, "散歩した", "general", some 0, 0, 0, 0, true⟩], [], []⟩).2.1 1
            = some m' ∧
          m.compression_level < m'.compression_level ∧
          m'.memory_content.length < m.memory_content.length) :=
  compression_monotone ⟨fun _ => "", fun _ => none, fun _ => none⟩ 40
    ⟨[], [⟨1, "散歩した", "general", some 0, 0, 0, 0, true⟩], [], []⟩ (by decide) 1

/-- Every pair the request-merge loop acts on has both ids outside the
incoming `processed_ids` set. -/
theorem merge_requests_loop_acted_free (c : Client) (now : Nat)
    (requests : List RequestRec) :
    ∀ (dups : List DuplicatePair) (processed : List Nat) (db : Db),
      ∀ p ∈ (merge_requests_loop c now requests dups processed db).acted,
        p.id1 ∉ processed ∧ p.id2 ∉ processed := by
  intro dups
  induction dups with
  | nil => intro processed db p hp; cases hp
  | cons d rest ih =>
    intro processed db p hp
    simp only [merge_requests_loop] at hp
    by_cases hc : (processed.contains d.id1 || processed.contains d.id2) = true
    · rw [if_pos hc] at hp
      exact ih processed db p hp
    · rw [if_neg hc] at hp
      cases hf1 : requests.find? (fun r => r.id == d.id1) with
      | none => rw [hf1] at hp; exact ih processed db p hp
      | some rq1 =>
        rw [hf1] at hp
        cases hf2 : requests.find? (fun r => r.id == d.id2) with
        | none => rw [hf2] at hp; exact ih processed db p hp
        | some rq2 =>
          rw [hf2] at hp
          rcases List.mem_cons.mp hp with rfl | hp'
          · refine ⟨fun hmem => hc (by simp [List.contains, hmem]),
              fun hmem => hc (by simp [List.contains, hmem])⟩
          · obtain ⟨h1, h2⟩ := ih _ _ p hp'
            exact ⟨fun hmem => h1 (by simp [hmem]), fun hmem => h2 (by simp [hmem])⟩

/-- The pairs the request-merge loop acts on are pairwise id-disjoint. -/
theorem merge_requests_loop_pairwise (c : Client) (now : Nat)
    (requests : List RequestRec) :
    ∀ (dups : List DuplicatePair) (processed : List Nat) (db : Db),
      ((merge_requests_loop c now requests dups processed db).acted).Pairwise
        (fun p q => p.id1 ≠ q.id1 ∧ p.id1 ≠ q.id2 ∧ p.id2 ≠ q.id1 ∧ p.id2 ≠ q.id2) := by
  intro dups
  induction dups with
  | nil => intro processed db; exact List.Pairwise.nil
  | cons d rest ih =>
    intro processed db
    simp only [merge_requests_loop]
    by_cases hc : (processed.contains d.id1 || processed.contains d.id2) = true
    · rw [if_pos hc]
      exact ih processed db
    · rw [if_neg hc]
      cases hf1 : requests.find? (fun r => r.id == d.id1) with
      | none => exact ih processed db
      | some rq1 =>
        cases hf2 : requests.find? (fun r => r.id == d.id2) with
        | none => exact ih processed db
        | some rq2 =>
          show List.Pairwise _ (d :: (merge_requests_loop c now requests rest
            (d.id1 :: d.id2 :: processed) _).acted)
          refine List.Pairwise.cons ?_ (ih _ _)
          intro q hq
          obtain ⟨hq1, hq2⟩ :=
            merge_requests_loop_acted_free c now requests rest
              (d.id1 :: d.id2 :: processed) _ q hq
          have e11 : q.id1 ≠ d.id1 := fun he => hq1 (by simp [he])
          have e12 : q.id1 ≠ d.id2 := fun he => hq1 (by simp [he])
          have e21 : q.id2 ≠ d.id1 := fun he => hq2 (by simp [he])
          have e22 : q.id2 ≠ d.id2 := fun he => hq2 (by simp [he])
          exact ⟨e11.symm, e21.symm, e12.symm, e22.symm⟩

/-- The pairs the attribute-conflict loop acts on are pairwise id-disjoint. -/
theorem attribute_conflicts_loop_pairwise (attributes : List AttributeRec) :
    ∀ (conflicts : List ConflictPair) (processed : List Nat) (db : Db),
      ((resolve_attribute_conflicts_loop attributes conflicts processed db).acted).Pairwise
        (fun p q => p.id1 ≠ q.id1 ∧ p.id1 ≠ q.id2 ∧ p.id2 ≠ q.id1 ∧ p.id2 ≠ q.id2) := by
  intro conflicts
  induction conflicts with
  | nil => intro processed db; exact List.Pairwise.nil
  | cons cf rest ih =>
    intro processed db
    simp only [resolve_attribute_conflicts_loop]
    by_cases hc : (processed.contains cf.id1 || processed.contains cf.id2) = true
    · rw [if_pos hc]
      exact ih processed db
    · rw [if_neg hc]
      cases hf1 : attributes.find? (fun a => a.id == cf.id1) with
      | none => exact ih processed db
      | some a1 =>
        cases hf2 : attributes.find? (fun a => a.id == cf.id2) with
        | none => exact ih processed db
        | some a2 =>
          show List.Pairwise _ (cf :: (resolve_attribute_conflicts_loop attributes rest
            (cf.id1 :: cf.id2 :: processed) _).acted)
          refine List.Pairwise.cons ?_ (ih _ _)
          intro q hq
          obtain ⟨hq1, hq2⟩ :=
            attribute_conflicts_acted_free attributes rest
              (cf.id1 :: cf.id2 :: processed) _ q hq
          have e11 : q.id1 ≠ cf.id1 := fun he => hq1 (by simp [he])
          have e12 : q.id1 ≠ cf.id2 := fun he => hq1 (by simp [he])
          have e21 : q.id2 ≠ cf.id1 := fun he => hq2 (by simp [he])
          have e22 : q.id2 ≠ cf.id2 := fun he => hq2 (by simp [he])
          exact ⟨e11.symm, e21.symm, e12.symm, e22.symm⟩

/-- The pairs the goal-conflict loop acts on are pairwise id-disjoint. -/
theorem goal_conflicts_loop_pairwise (now : Nat) (goals : List GoalRec) :
    ∀ (conflicts : List ConflictPair) (processed : List Nat) (db : Db),
      ((resolve_goal_conflicts_loop now goals conflicts processed db).acted).Pairwise
        (fun p q => p.id1 ≠ q.id1 ∧ p.id1 ≠ q.id2 ∧ p.id2 ≠ q.id1 ∧ p.id2 ≠ q.id2) := by
  intro conflicts
  induction conflicts with
  | nil => intro processed db; exact List.Pairwise.nil
  | cons cf rest ih =>
    intro processed db
    simp only [resolve_goal_conflicts_loop]
    by_cases hc : (processed.contains cf.id1 || processed.contains cf.id2) = true
    · rw [if_pos hc]
      exact ih processed db
    · rw [if_neg hc]
      cases hf1 : goals.find? (fun g => g.id == cf.id1) with
      | none => exact ih processed db
      | some g1 =>
        cases hf2 : goals.find? (fun g => g.id == cf.id2) with
        | none => exact ih processed db
        | some g2 =>
          show List.Pairwise _ (cf :: (resolve_goal_conflicts_loop now goals rest
            (cf.id1 :: cf.id2 :: processed) _).acted)
          refine List.Pairwise.cons ?_ (ih _ _)
          intro q hq
          obtain ⟨hq1, hq2⟩ :=
            goal_conflicts_acted_free now goals rest
              (cf.id1 :: cf.id2 :: processed) _ q hq
          have e11 : q.id1 ≠ cf.id1 := fun he => hq1 (by simp [he])
          have e12 : q.id1 ≠ cf.id2 := fun he => hq1 (by simp [he])
          have e21 : q.id2 ≠ cf.id1 := fun he => hq2 (by simp [he])
          have e22 : q.id2 ≠ cf.id2 := fun he => hq2 (by simp [he])
          exact ⟨e11.symm, e21.symm, e12.symm, e22.symm⟩

/-- C2: within one organization run, each record id participates in at most
one merge or conflict resolution (first-claim wins): in every loop that acts
on reported pairs — episode merge, request merge, attribute-conflict
resolution and goal-conflict resolution — the acted-on pairs are pairwise
id-disjoint; and for reported duplicate pairs [(1,2), (2,3)] exactly one
merge executes — the merged text replaces record 1, record 2 is soft-deleted,
the pair (2,3) is skipped and record 3 is untouched. -/
theorem first_claim_wins :
    (∀ c now episodes dups db,
       ((merge_episodes_loop c now episodes dups [] db).acted).Pairwise
         (fun p q => p.id1 ≠ q.id1 ∧ p.id1 ≠ q.id2 ∧ p.id2 ≠ q.id1 ∧ p.id2 ≠ q.id2)) ∧
    (∀ c now requests dups db,
       ((merge_requests_loop c now requests dups [] db).acted).Pairwise
         (fun p q => p.id1 ≠ q.id1 ∧ p.id1 ≠ q.id2 ∧ p.id2 ≠ q.id1 ∧ p.id2 ≠ q.id2)) ∧
    (∀ attributes conflicts db,
       ((resolve_attribute_conflicts_loop attributes conflicts [] db).acted).Pairwise
         (fun p q => p.id1 ≠ q.id1 ∧ p.id1 ≠ q.id2 ∧ p.id2 ≠ q.id1 ∧ p.id2 ≠ q.id2)) ∧
    (∀ now goals conflicts db,
       ((resolve_goal_conflicts_loop now goals conflicts [] db).acted).Pairwise
         (fun p q => p.id1 ≠ q.id1 ∧ p.id1 ≠ q.id2 ∧ p.id2 ≠ q.id1 ∧ p.id2 ≠ q.id2)) ∧
    (merge_duplicate_episodes
        ⟨fun _ => "公園とカフェに行った", fun _ => some [⟨1, 2⟩, ⟨2, 3⟩], fun _ => none⟩ 6
        [⟨1, "公園に行った", "general", some 5, 1, 0, 0, true⟩,
         ⟨2, "公園を訪れた", "general", some 5, 2, 0, 0, true⟩,
         ⟨3, "カフェに行った", "general", some 5, 3, 0, 0, true⟩]
        ⟨[], [⟨1, "公園に行った", "general", some 5, 1, 0, 0, true⟩,
              ⟨2, "公園を訪れた", "general", some 5, 2, 0, 0, true⟩,
              ⟨3, "カフェに行った", "general", some 5, 3, 0, 0, true⟩], [], []⟩).merged = 1 ∧
    (merge_duplicate_episodes
        ⟨fun _ => "公園とカフェに行った", fun _ => some [⟨1, 2⟩, ⟨2, 3⟩], fun _ => none⟩ 6
        [⟨1, "公園に行った", "general", some 5, 1, 0, 0, true⟩,
         ⟨2, "公園を訪れた", "general", some 5, 2, 0, 0, true⟩,
         ⟨3, "カフェに行った", "general", some 5, 3, 0, 0, true⟩]
        ⟨[], [⟨1, "公園に行った", "general", some 5, 1, 0, 0, true⟩,
              ⟨2, "公園を訪れた", "general", some 5, 2, 0, 0, true⟩,
              ⟨3, "カフェに行った", "general", some 5, 3, 0, 0, true⟩], [], []⟩).acted
      = [⟨1, 2⟩] ∧
    (merge_duplicate_episodes
        ⟨fun _ => "公園とカフェに行った", fun _ => some [⟨1, 2⟩, ⟨2, 3⟩], fun _ => none⟩ 6
        [⟨1, "公園に行った", "general", some 5, 1, 0, 0, true⟩,
         ⟨2, "公園を訪れた", "general", some 5, 2, 0, 0, true⟩,
         ⟨3, "カフェに行った", "general", some 5, 3, 0, 0, true⟩]
        ⟨[], [⟨1, "公園に行った", "general", some 5, 1, 0, 0, true⟩,
              ⟨2, "公園を訪れた", "general", some 5, 2, 0, 0, true⟩,
              ⟨3, "カフェに行った", "general", some 5, 3, 0, 0, true⟩], [], []⟩).db.user_memories
      = [⟨1, "公園とカフェに行った", "general", some 5, 6, 0, 0, true⟩,
         ⟨2, "公園を訪れた", "general", some 5, 6, 0, 0, false⟩,
         ⟨3, "カフェに行った", "general", some 5, 3, 0, 0, true⟩] :=
  ⟨fun c now episodes dups db => merge_episodes_loop_pairwise c now episodes dups [] db,
   fun c now requests dups db => merge_requests_loop_pairwise c now requests dups [] db,
   fun attributes conflicts db =>
     attribute_conflicts_loop_pairwise attributes conflicts [] db,
   fun now goals conflicts db => goal_conflicts_loop_pairwise now goals conflicts [] db,
   by decide, by decide, by decide⟩

end MemAssist
